import Mathlib

/-!
Verification development for the `otto` mail synchronizer.

This file gives a shallow embedding, in Lean 4, of the parts of the `otto`
source that the specification claims talk about:

* `src/sync/mod.rs` — the per-folder sync state machine (`SyncEngine::sync_folder`,
  `fetch_and_handle_new_uids`, `fetch_and_update_flags`, `build_uid_sequence`);
* `src/storage/db.rs` — the store operations the engine uses
  (`upsert_folder_state`, `load_message_ids_by_uids`,
  `load_uid_to_message_id_map_by_folder`, `load_existing_message_ids`,
  `batch_update_message_flags_by_uid`, `batch_update_message_location_by_id`,
  `dedupe_fallback_messages_by_raw_hash`, `batch_upsert_messages_with_bodies`,
  `delete_message`, `default_data_dir`);
* `src/sanitize/mod.rs` — the MIME summary walk (`walk_mime`, `summarize_mime`)
  and its helpers.

Modelling conventions:

* The SQLite store is modelled as in-memory lists of rows (`Db`), one Lean
  structure per table with the columns of the schema in `db.rs`.  The JSON
  serialization of the `flags`/`labels` text columns is irrelevant to every
  claim, so those columns hold the decoded `List String` directly.
* Async I/O is modelled by oracles: `Server` gives the responses of the IMAP
  session (`uid_search`, `uid_fetch`), and the body-fetch pipeline
  `fetch_and_store_new_messages` (network fetch + MIME parse + sanitize +
  batch upsert), whose internals no claim inspects, is abstracted by an
  oracle `S : Db → List Nat → Db` for its effect on the store, recorded in
  the event trace as a `fetchBodies` call with the exact UID list it was
  invoked on.
* SQL transactions are modelled by building the new store value on the side
  and publishing it only on success (`Except`), mirroring rollback.
* Rust `String` operations that do not reduce in the Lean kernel
  (`trim`, `starts_with`, …) are re-implemented on `List Char`.
* `HashSet` iteration order is not observable in any claim; sets collected
  from search results are modelled as duplicate-free lists in response order
  (`List.eraseDups`).
-/

namespace Otto

/-! ## Kernel-reducible string helpers (Rust `str` operations) -/

/-- Rust `str::contains(char)`. -/
def strContainsChar (s : String) (c : Char) : Bool :=
  s.data.contains c

/-- Rust `str::starts_with`. -/
def strStartsWith (s p : String) : Bool :=
  p.data.isPrefixOf s.data

/-- Rust `str::trim` (strip whitespace from both ends). -/
def trimChars (cs : List Char) : List Char :=
  ((cs.dropWhile Char.isWhitespace).reverse.dropWhile Char.isWhitespace).reverse

/-- Rust `str::trim` on `String`. -/
def strTrim (s : String) : String :=
  ⟨trimChars s.data⟩

/-- Rust `str::trim_matches(&['<','>'])` (strip those chars from both ends). -/
def trimAngles (s : String) : String :=
  ⟨((s.data.dropWhile fun c => c == '<' || c == '>').reverse.dropWhile
      fun c => c == '<' || c == '>').reverse⟩

/-! ## Decimal rendering (Rust `u32::to_string`) -/

/-- Fuel-driven digit expansion of a natural number, most significant digit
first; `fuel > n` always suffices.  Fuel keeps the definition structurally
recursive so that the kernel can evaluate it. -/
def digitsGo : Nat → Nat → List Char
  | 0, _ => []
  | fuel + 1, n =>
    if n < 10 then [Nat.digitChar n]
    else digitsGo fuel (n / 10) ++ [Nat.digitChar (n % 10)]

/-- Decimal digits of `n`, e.g. `decimalDigits 57 = ['5','7']`.  This is the
rendering `u32::to_string` produces. -/
def decimalDigits (n : Nat) : List Char :=
  digitsGo (n + 1) n

/-- Decimal rendering of `n` as a `String` (Rust `u32::to_string`). -/
def natToString (n : Nat) : String :=
  ⟨decimalDigits n⟩

/-- Numeric value of a decimal digit character. -/
def digitVal (c : Char) : Nat :=
  c.toNat - '0'.toNat

/-- Value of a most-significant-digit-first digit string. -/
def digitsVal (cs : List Char) : Nat :=
  cs.foldl (fun a c => a * 10 + digitVal c) 0

theorem digitsVal_append_singleton (xs : List Char) (c : Char) :
    digitsVal (xs ++ [c]) = 10 * digitsVal xs + digitVal c := by
  simp [digitsVal, List.foldl_append, Nat.mul_comm]

theorem digitChar_spec {d : Nat} (h : d < 10) :
    digitVal (Nat.digitChar d) = d ∧ (Nat.digitChar d).isDigit = true := by
  interval_cases d <;> exact ⟨by decide, by decide⟩

theorem digitsGo_spec : ∀ fuel n, n < fuel →
    digitsVal (digitsGo fuel n) = n ∧ digitsGo fuel n ≠ [] ∧
      ∀ c ∈ digitsGo fuel n, c.isDigit = true := by
  intro fuel
  induction fuel with
  | zero => intro n h; omega
  | succ f ih =>
    intro n h
    by_cases h10 : n < 10
    · refine ⟨?_, by simp [digitsGo, h10], ?_⟩
      · simp [digitsGo, h10, digitsVal, (digitChar_spec h10).1]
      · intro c hc
        simp [digitsGo, h10] at hc
        subst hc
        exact (digitChar_spec h10).2
    · have hdiv : n / 10 < f := by
        have : n / 10 < n := Nat.div_lt_self (by omega) (by omega)
        omega
      obtain ⟨hval, hne, hdig⟩ := ih (n / 10) hdiv
      have hmod : n % 10 < 10 := Nat.mod_lt _ (by omega)
      refine ⟨?_, by simp [digitsGo, h10], ?_⟩
      · rw [digitsGo]
        simp only [h10, if_false]
        rw [digitsVal_append_singleton, hval, (digitChar_spec hmod).1]
        omega
      · intro c hc
        rw [digitsGo] at hc
        simp only [h10, if_false, List.mem_append, List.mem_singleton] at hc
        rcases hc with hc | hc
        · exact hdig c hc
        · subst hc; exact (digitChar_spec hmod).2

theorem decimalDigits_val (n : Nat) : digitsVal (decimalDigits n) = n :=
  (digitsGo_spec (n + 1) n (Nat.lt_succ_self n)).1

theorem decimalDigits_ne_nil (n : Nat) : decimalDigits n ≠ [] :=
  (digitsGo_spec (n + 1) n (Nat.lt_succ_self n)).2.1

theorem decimalDigits_isDigit (n : Nat) : ∀ c ∈ decimalDigits n, c.isDigit = true :=
  (digitsGo_spec (n + 1) n (Nat.lt_succ_self n)).2.2

theorem decimalDigits_no_comma (n : Nat) : ∀ c ∈ decimalDigits n, c ≠ ',' := by
  intro c hc
  have := decimalDigits_isDigit n c hc
  intro hcomma
  subst hcomma
  simp [Char.isDigit] at this

/-! ## `SyncEngine::build_uid_sequence` (src/sync/mod.rs) -/

/-- Rust `Vec::join(",")`: comma-intercalation of character lists. -/
def joinComma : List (List Char) → List Char
  | [] => []
  | [t] => t
  | t :: t2 :: ts => t ++ ',' :: joinComma (t2 :: ts)

/-- Embedding of `SyncEngine::build_uid_sequence`: the empty input yields
`"1"`, otherwise the comma-separated decimal rendering of the UIDs. -/
def build_uid_sequence (uids : List Nat) : String :=
  if uids.isEmpty then "1"
  else ⟨joinComma (uids.map decimalDigits)⟩

/-- Splitting a character list at commas (what an IMAP server does to a
`uid_sequence` of single UIDs).  Inverse of `joinComma` on comma-free,
non-empty token lists. -/
def splitComma : List Char → List (List Char)
  | [] => [[]]
  | c :: rest =>
    match splitComma rest with
    | [] => [[c]]
    | t :: ts => if c = ',' then [] :: t :: ts else (c :: t) :: ts

/-- A token denotes a UID iff it is a non-empty all-digit string. -/
def tokenNat (t : List Char) : Option Nat :=
  if !t.isEmpty && t.all Char.isDigit then some (digitsVal t) else none

/-- The set of UIDs a UID-sequence string denotes: split at commas, keep the
numeric tokens, forget order and multiplicity. -/
def uidSetDenoted (s : String) : Finset Nat :=
  ((splitComma s.data).filterMap tokenNat).toFinset

theorem splitComma_ne_nil : ∀ cs, splitComma cs ≠ [] := by
  intro cs
  cases cs with
  | nil => simp [splitComma]
  | cons c rest =>
    rw [splitComma]
    cases splitComma rest with
    | nil => simp
    | cons t ts =>
      by_cases h : c = ',' <;> simp [h]

theorem splitComma_comma (cs : List Char) :
    splitComma (',' :: cs) = [] :: splitComma cs := by
  rw [splitComma]
  cases h : splitComma cs with
  | nil => exact absurd h (splitComma_ne_nil cs)
  | cons t ts => simp

theorem splitComma_append_of_no_comma :
    ∀ (t cs : List Char) (u : List Char) (us : List (List Char)),
      (∀ c ∈ t, c ≠ ',') → splitComma cs = u :: us →
      splitComma (t ++ cs) = (t ++ u) :: us := by
  intro t
  induction t with
  | nil => intro cs u us _ hcs; simpa using hcs
  | cons a t ih =>
    intro cs u us hnc hcs
    have ha : a ≠ ',' := hnc a (List.mem_cons_self a t)
    have ht : ∀ c ∈ t, c ≠ ',' := fun c hc => hnc c (List.mem_cons_of_mem a hc)
    have := ih cs u us ht hcs
    rw [List.cons_append, splitComma, this]
    simp [ha]

theorem splitComma_joinComma :
    ∀ ts : List (List Char), ts ≠ [] → (∀ t ∈ ts, ∀ c ∈ t, c ≠ ',') →
      splitComma (joinComma ts) = ts := by
  intro ts
  induction ts with
  | nil => intro h; exact absurd rfl h
  | cons t rest ih =>
    intro _ hnc
    have ht : ∀ c ∈ t, c ≠ ',' := hnc t (List.mem_cons_self t rest)
    cases rest with
    | nil =>
      have : splitComma ([] : List Char) = [] :: [] := by simp [splitComma]
      have happ := splitComma_append_of_no_comma t [] [] [] ht this
      simpa [joinComma] using happ
    | cons t2 ts2 =>
      have hrest : splitComma (joinComma (t2 :: ts2)) = t2 :: ts2 :=
        ih (by simp) (fun u hu c hc => hnc u (List.mem_cons_of_mem t hu) c hc)
      have hcomma : splitComma (',' :: joinComma (t2 :: ts2)) =
          [] :: t2 :: ts2 := by rw [splitComma_comma, hrest]
      have happ := splitComma_append_of_no_comma t (',' :: joinComma (t2 :: ts2))
        [] (t2 :: ts2) ht hcomma
      simpa [joinComma] using happ

theorem tokenNat_decimalDigits (n : Nat) : tokenNat (decimalDigits n) = some n := by
  have h1 : (decimalDigits n).isEmpty = false := by
    cases h : decimalDigits n with
    | nil => exact absurd h (decimalDigits_ne_nil n)
    | cons a l => simp
  have h2 : (decimalDigits n).all Char.isDigit = true :=
    List.all_eq_true.mpr (decimalDigits_isDigit n)
  simp [tokenNat, h1, h2, decimalDigits_val]

theorem uidSetDenoted_build (uids : List Nat) (h : uids ≠ []) :
    uidSetDenoted (build_uid_sequence uids) = uids.toFinset := by
  have hne : uids.isEmpty = false := by
    cases uids with
    | nil => exact absurd rfl h
    | cons a l => simp
  have hmapne : uids.map decimalDigits ≠ [] := by
    simpa using h
  have hnc : ∀ t ∈ uids.map decimalDigits, ∀ c ∈ t, c ≠ ',' := by
    intro t ht c hc
    obtain ⟨n, _, rfl⟩ := List.mem_map.mp ht
    exact decimalDigits_no_comma n c hc
  have hsplit := splitComma_joinComma (uids.map decimalDigits) hmapne hnc
  rw [build_uid_sequence, if_neg (by simp [hne])]
  show ((splitComma (joinComma (uids.map decimalDigits))).filterMap tokenNat).toFinset
      = uids.toFinset
  rw [hsplit, List.filterMap_map]
  have : (tokenNat ∘ decimalDigits) = fun n => some n := by
    funext n
    simp [Function.comp, tokenNat_decimalDigits]
  rw [this]
  simp

/-! ## Data model: rows of the SQLite schema (src/storage/db.rs `migrate`) -/

/-- One row of the `messages` table (= the fields of `MessageRecord`).  The
`flags`/`labels` TEXT columns hold JSON renderings of string lists in the
store; no claim observes the serialization, so the row holds the lists. -/
structure MessageRow where
  id : String
  account_id : String
  folder : String
  uid : Option Nat
  thread_id : Option String
  internal_date : Option Int
  subject : Option String
  from_addr : Option String
  to_addrs : Option String
  cc_addrs : Option String
  bcc_addrs : Option String
  flags : List String
  labels : List String
  has_attachments : Bool
  size_bytes : Option Nat
  raw_hash : Option String
  created_at : Int
  updated_at : Int
deriving DecidableEq, Repr

/-- One row of the `bodies` table (= the fields of `BodyRecord`). -/
structure BodyRow where
  message_id : String
  raw_rfc822 : Option (List Nat)
  sanitized_text : Option String
  mime_summary : Option String
  attachments_json : Option String
  sanitized_at : Option Int
deriving DecidableEq, Repr

/-- One row of the `folders` table (= the fields of `FolderState`). -/
structure FolderRow where
  account_id : String
  name : String
  uidvalidity : Option Nat
  highest_uid : Option Nat
  highestmodseq : Option Nat
  exists_count : Option Nat
  last_sync_ts : Option Int
  last_uid_scan_ts : Option Int
  created_at : Int
  updated_at : Int
deriving DecidableEq, Repr

/-- Embedding of `FolderStateUpdate` (src/storage/db.rs). -/
structure FolderStateUpdate where
  uidvalidity : Option Nat := none
  highest_uid : Option Nat := none
  highestmodseq : Option Nat := none
  exists_count : Option Nat := none
  last_sync_ts : Option Int := none
  last_uid_scan_ts : Option Int := none
deriving DecidableEq, Repr

/-- The store (`Database`): the tables the claims touch. -/
structure Db where
  folders : List FolderRow
  messages : List MessageRow
  bodies : List BodyRow
deriving DecidableEq, Repr

/-! ## Store operations (src/storage/db.rs) -/

/-- Lexicographic comparison on character lists (SQLite default collation on
ASCII names); kernel-reducible replacement for `String.le`. -/
def charListLe : List Char → List Char → Bool
  | [], _ => true
  | _ :: _, [] => false
  | a :: as, b :: bs =>
    if a.toNat < b.toNat then true
    else if b.toNat < a.toNat then false
    else charListLe as bs

/-- String comparison used for `ORDER BY name ASC`. -/
def strLe (a b : String) : Bool :=
  charListLe a.data b.data

/-- Insertion step of a stable sort by folder name. -/
def insertByName (f : FolderRow) : List FolderRow → List FolderRow
  | [] => [f]
  | g :: gs => if strLe f.name g.name then f :: g :: gs else g :: insertByName f gs

/-- Stable sort by folder name (`ORDER BY name ASC`). -/
def sortByName (l : List FolderRow) : List FolderRow :=
  l.foldr insertByName []

/-- Embedding of `Database::list_folders`: folders of the account, ordered by
name. -/
def list_folders (db : Db) (account_id : String) : List FolderRow :=
  sortByName (db.folders.filter fun f => f.account_id == account_id)

/-- Embedding of `Database::upsert_folder_state` (the write half): insert the
row or, on conflict of `(account_id, name)`, overwrite every baseline column
with the excluded values (`created_at` is kept). -/
def upsert_folder_state (db : Db) (account_id name : String)
    (u : FolderStateUpdate) (now : Int) : Db :=
  if db.folders.any fun f => f.account_id == account_id && f.name == name then
    { db with folders := db.folders.map fun f =>
        if f.account_id == account_id && f.name == name then
          { f with
            uidvalidity := u.uidvalidity
            highest_uid := u.highest_uid
            highestmodseq := u.highestmodseq
            exists_count := u.exists_count
            last_sync_ts := u.last_sync_ts
            last_uid_scan_ts := u.last_uid_scan_ts
            updated_at := now }
        else f }
  else
    { db with folders := db.folders ++
        [{ account_id := account_id, name := name
           uidvalidity := u.uidvalidity
           highest_uid := u.highest_uid
           highestmodseq := u.highestmodseq
           exists_count := u.exists_count
           last_sync_ts := u.last_sync_ts
           last_uid_scan_ts := u.last_uid_scan_ts
           created_at := now, updated_at := now }] }

/-- Embedding of `Database::load_uid_to_message_id_map_by_folder`: the
`uid → id` pairs of the folder's rows with a positive uid (the source drops
`uid == 0` when filling the `HashMap`). -/
def load_uid_to_message_id_map_by_folder (db : Db) (account_id folder : String) :
    List (Nat × String) :=
  db.messages.filterMap fun m =>
    if m.account_id == account_id && m.folder == folder then
      match m.uid with
      | some u => if 0 < u then some (u, m.id) else none
      | none => none
    else none

/-- Embedding of `Database::load_message_ids_by_uids`: as above but restricted
to `uid IN uids`; the empty uid list short-circuits to the empty map. -/
def load_message_ids_by_uids (db : Db) (account_id folder : String)
    (uids : List Nat) : List (Nat × String) :=
  if uids.isEmpty then []
  else db.messages.filterMap fun m =>
    if m.account_id == account_id && m.folder == folder then
      match m.uid with
      | some u => if uids.contains u && 0 < u then some (u, m.id) else none
      | none => none
    else none

/-- Embedding of `Database::load_existing_message_ids`: the subset of `ids`
present in `messages` for this account (as a list standing for the
`HashSet`). -/
def load_existing_message_ids (db : Db) (account_id : String)
    (ids : List String) : List String :=
  if ids.isEmpty then []
  else (db.messages.filter fun m =>
    m.account_id == account_id && ids.contains m.id).map fun m => m.id

/-- Embedding of `Database::batch_update_message_flags_by_uid`: one
transaction of per-uid flag updates.  (The engine in src/sync/mod.rs passes
`(uid, flags)` pairs; the column updated is `flags`.) -/
def batch_update_message_flags_by_uid (db : Db) (account_id folder : String)
    (updates : List (Nat × List String)) (now : Int) : Db :=
  if updates.isEmpty then db
  else updates.foldl (fun d u =>
    { d with messages := d.messages.map fun m =>
        if m.account_id == account_id && m.folder == folder && m.uid == some u.1
        then { m with flags := u.2, updated_at := now }
        else m }) db

/-- Embedding of the `MessageLocationUpdate` tuple
`(id, folder, uid, flags, labels, thread, date, size)`. -/
structure LocationUpdate where
  message_id : String
  folder : String
  uid : Nat
  flags : List String
  labels : List String
  thread_id : Option String
  internal_date : Option Int
  size_bytes : Option Nat
deriving DecidableEq, Repr

/-- Embedding of `Database::batch_update_message_location_by_id`: one
transaction of per-id location updates. -/
def batch_update_message_location_by_id (db : Db) (account_id : String)
    (updates : List LocationUpdate) (now : Int) : Db :=
  if updates.isEmpty then db
  else updates.foldl (fun d u =>
    { d with messages := d.messages.map fun m =>
        if m.account_id == account_id && m.id == u.message_id then
          { m with
            folder := u.folder
            uid := some u.uid
            flags := u.flags
            labels := u.labels
            thread_id := u.thread_id
            internal_date := u.internal_date
            size_bytes := u.size_bytes
            updated_at := now }
        else m }) db

/-- Embedding of `Database::delete_message`: delete the body row, then the
message row. -/
def delete_message (db : Db) (message_id : String) : Db :=
  { db with
    bodies := db.bodies.filter fun b => b.message_id != message_id
    messages := db.messages.filter fun m => m.id != message_id }

/-- SQLite `id GLOB '[0-9]*'`: first character is a digit, rest arbitrary. -/
def globDigitStar (s : String) : Bool :=
  match s.data with
  | [] => false
  | c :: _ => c.isDigit

/-- SQL `legacy.raw_hash = stable.raw_hash` under NULL propagation: both
non-NULL and equal. -/
def rawHashEq : Option String → Option String → Bool
  | some a, some b => a == b
  | _, _ => false

/-- The rows returned by the duplicate-finding SELECT of
`Database::dedupe_fallback_messages_by_raw_hash`: `legacy.id` for every join
pair `(stable, legacy)` with the same account and raw_hash where `stable.id`
matches `GLOB '[0-9]*'`, `legacy.id` contains `:`, and the ids differ;
truncated by `LIMIT`.  (The join is enumerated in table order.) -/
def dedupe_candidates (db : Db) (account_id : String) (limit : Nat) :
    List String :=
  (db.messages.flatMap fun stab =>
    db.messages.filterMap fun legacy =>
      if stab.account_id == account_id &&
         legacy.account_id == stab.account_id &&
         rawHashEq legacy.raw_hash stab.raw_hash &&
         globDigitStar stab.id &&
         strContainsChar legacy.id ':' &&
         legacy.id != stab.id
      then some legacy.id else none).take limit

/-- Embedding of `Database::dedupe_fallback_messages_by_raw_hash`: delete each
selected id via `delete_message` and return how many deletions were issued
(the counter increments once per selected row, even if a duplicate selection
deleted the row earlier). -/
def dedupe_fallback_messages_by_raw_hash (db : Db) (account_id : String)
    (limit : Nat) : Db × Nat :=
  let ids := dedupe_candidates db account_id limit
  (ids.foldl (fun d i => delete_message d i) db, ids.length)

/-- The `INSERT ... ON CONFLICT(id) DO UPDATE` of a `messages` row: on conflict
every column except `created_at` takes the excluded value. -/
def upsert_message_row (db : Db) (m : MessageRow) : Db :=
  if db.messages.any fun old => old.id == m.id then
    { db with messages := db.messages.map fun old =>
        if old.id == m.id then { m with created_at := old.created_at } else old }
  else { db with messages := db.messages ++ [m] }

/-- The `INSERT ... ON CONFLICT(message_id) DO UPDATE` of a `bodies` row: on
conflict every column takes the excluded value. -/
def upsert_body_row (db : Db) (b : BodyRow) : Db :=
  if db.bodies.any fun old => old.message_id == b.message_id then
    { db with bodies := db.bodies.map fun old =>
        if old.message_id == b.message_id then b else old }
  else { db with bodies := db.bodies ++ [b] }

/-- The cumulative effect of a whole message/body batch. -/
def applyBatch (db : Db) (pairs : List (MessageRow × BodyRow)) : Db :=
  pairs.foldl (fun d p => upsert_body_row (upsert_message_row d p.1) p.2) db

/-- The statement loop of `batch_upsert_messages_with_bodies` inside the
transaction.  `stepOk i` says whether the `i`-th SQL statement succeeds
(message upserts at even indices, body upserts at odd ones); a failing
statement aborts with the error `anyhow::Context` attaches in the source. -/
def runBatchSteps (stepOk : Nat → Bool) :
    Db → List (MessageRow × BodyRow) → Nat → Except String Db
  | d, [], _ => .ok d
  | d, p :: ps, i =>
    if !stepOk i then .error "batch upserting message"
    else
      let d1 := upsert_message_row d p.1
      if !stepOk (i + 1) then .error "batch upserting body"
      else runBatchSteps stepOk (upsert_body_row d1 p.2) ps (i + 2)

/-- Embedding of `Database::batch_upsert_messages_with_bodies`.  The SQLite
transaction is modelled by accumulating the writes on a scratch store that is
published only by `.ok` (a failure — including a failed `COMMIT`, modelled as
statement index `2 * messages.length` — leaves the caller's store untouched,
which is exactly the rollback guarantee). -/
def batch_upsert_messages_with_bodies (stepOk : Nat → Bool) (db : Db)
    (messages : List MessageRow) (bodies : List BodyRow) : Except String Db :=
  if messages.isEmpty then .ok db
  else if messages.length != bodies.length then
    .error "messages and bodies length mismatch"
  else
    match runBatchSteps stepOk db (messages.zip bodies) 0 with
    | .error e => .error e
    | .ok d =>
      if stepOk (2 * messages.length) then .ok d
      else .error "committing batch transaction"

/-! ## `default_data_dir` (src/storage/db.rs) -/

/-- The filesystem/environment facts `default_data_dir` consults. -/
structure FsEnv where
  otto_data_dir : Option String
  home_dir : Option String
  current_dir : Option String
  create_dir_ok : String → Bool

/-- Rust `PathBuf::join` for the purposes of this embedding. -/
def pathJoin (a b : String) : String :=
  a ++ "/" ++ b

/-- Embedding of `default_data_dir`: honour `$OTTO_DATA_DIR` when set
(failing hard if it cannot be created), otherwise `$HOME/otto`, otherwise
`./otto-data`. -/
def default_data_dir (env : FsEnv) : Except String String :=
  match env.otto_data_dir with
  | some custom =>
    if env.create_dir_ok custom then .ok custom
    else .error ("creating OTTO_DATA_DIR at " ++ custom)
  | none =>
    let viaHome : Option String :=
      match env.home_dir with
      | some home =>
        let p := pathJoin home "otto"
        if env.create_dir_ok p then some p else none
      | none => none
    match viaHome with
    | some p => .ok p
    | none =>
      match env.current_dir with
      | none => .error "determining current directory"
      | some cwd =>
        let p := pathJoin cwd "otto-data"
        if env.create_dir_ok p then .ok p
        else .error ("creating fallback data directory " ++ p)

/-! ## MIME summary walk (src/sanitize/mod.rs) -/

/-- Embedding of `mailparse::DispositionType`. -/
inductive DispositionType where
  | inline
  | attachment
  | formData
  | extension (v : String)
deriving DecidableEq, Repr

mutual

/-- A parsed MIME part as `walk_mime` consumes it: the content type
(`ctype.mimetype`, `ctype.charset`, `ctype.params`), the parsed
content-disposition and its parameters, the raw `Content-ID` header value,
the length of the raw encoded body (`get_body_encoded().get_raw().len()`),
and the subparts.  (`MimeParts` is the subpart list, mutually inductive so
that the tree walk is structurally recursive.) -/
inductive MimePart where
  | mk (mimetype charset : String)
       (disposition : DispositionType)
       (dispParams : List (String × String))
       (ctypeParams : List (String × String))
       (contentIdHeader : Option String)
       (encodedBytes : Nat)
       (subparts : MimeParts)

/-- The subpart list of a MIME part. -/
inductive MimeParts where
  | nil
  | cons (head : MimePart) (tail : MimeParts)

end

def MimePart.mimetype : MimePart → String
  | .mk m _ _ _ _ _ _ _ => m

def MimePart.charset : MimePart → String
  | .mk _ c _ _ _ _ _ _ => c

def MimePart.disposition : MimePart → DispositionType
  | .mk _ _ d _ _ _ _ _ => d

def MimePart.dispParams : MimePart → List (String × String)
  | .mk _ _ _ p _ _ _ _ => p

def MimePart.ctypeParams : MimePart → List (String × String)
  | .mk _ _ _ _ p _ _ _ => p

def MimePart.contentIdHeader : MimePart → Option String
  | .mk _ _ _ _ _ h _ _ => h

def MimePart.encodedBytes : MimePart → Nat
  | .mk _ _ _ _ _ _ n _ => n

def MimePart.subparts : MimePart → MimeParts
  | .mk _ _ _ _ _ _ _ s => s

/-- Rust `Vec::is_empty` on a subpart list. -/
def MimeParts.isEmpty : MimeParts → Bool
  | .nil => true
  | .cons _ _ => false

/-- Embedding of `disp_to_string`. -/
def disp_to_string : DispositionType → String
  | .inline => "inline"
  | .attachment => "attachment"
  | .formData => "form-data"
  | .extension v => v

/-- Embedding of `extract_filename`: disposition params `filename`/`name`
first, then content-type params `name`/`filename`; trim; empty means none. -/
def extract_filename (part : MimePart) : Option String :=
  let disp_name :=
    Option.orElse (part.dispParams.lookup "filename")
      fun _ => part.dispParams.lookup "name"
  let ctype_name :=
    Option.orElse (part.ctypeParams.lookup "name")
      fun _ => part.ctypeParams.lookup "filename"
  (Option.orElse disp_name fun _ => ctype_name).bind fun v =>
    let trimmed := strTrim v
    if trimmed.data.isEmpty then none else some trimmed

/-- The `Content-ID` processing in `walk_mime`: trim whitespace, then strip
`<`/`>` from both ends. -/
def walkContentId (part : MimePart) : Option String :=
  part.contentIdHeader.map fun v => trimAngles (strTrim v)

/-- Embedding of `is_attachment_part`. -/
def is_attachment_part (mimetype : String) (disposition : DispositionType)
    (filename contentId : Option String) : Bool :=
  if disposition == DispositionType.attachment then true
  else if filename.isSome then true
  else if contentId.isSome && !strStartsWith mimetype "text/" then true
  else !strStartsWith mimetype "text/" && !strStartsWith mimetype "multipart/"

/-- Embedding of `AttachmentMeta`. -/
structure AttachmentMeta where
  filename : Option String
  mime_type : String
  disposition : String
  content_id : Option String
  encoded_bytes : Nat
deriving DecidableEq, Repr

/-- The two accumulators `walk_mime` threads: the summary lines and the
attachment metadata. -/
structure WalkState where
  lines : List String
  attachments : List AttachmentMeta
deriving DecidableEq, Repr

/-- The indent `"  ".repeat(depth)`. -/
def indentOf (depth : Nat) : String :=
  ⟨List.replicate (2 * depth) ' '⟩

/-- The summary line `walk_mime` pushes for one part. -/
def mimeLine (depth : Nat) (part : MimePart) (disposition : String)
    (filename contentId : Option String) : String :=
  let line := indentOf depth ++ part.mimetype
  let line :=
    if strStartsWith part.mimetype "text/" && !(part.charset == "") then
      line ++ "; charset=" ++ part.charset
    else line
  let line := if !(disposition == "") then line ++ "; disp=" ++ disposition else line
  let line :=
    match filename with
    | some n => line ++ "; filename=" ++ n
    | none => line
  let line :=
    match contentId with
    | some c => line ++ "; cid=" ++ c
    | none => line
  if 0 < part.encodedBytes then line ++ "; bytes=" ++ natToString part.encodedBytes
  else line

mutual

/-- Embedding of `walk_mime`: guard on the line/depth caps, push one summary
line, classify the part as an attachment unless it is a multipart container,
then recurse into the subparts. -/
def walk_mime : MimePart → Nat → WalkState → WalkState
  | part@(.mk _ _ _ _ _ _ _ subs), depth, st =>
    if 300 < st.lines.length || 20 < depth then st
    else
      let disposition := disp_to_string part.disposition
      let filename := extract_filename part
      let contentId := walkContentId part
      let line := mimeLine depth part disposition filename contentId
      let st1 : WalkState := { st with lines := st.lines ++ [line] }
      let is_container :=
        strStartsWith part.mimetype "multipart/" && !part.subparts.isEmpty
      let st2 : WalkState :=
        if !is_container &&
            is_attachment_part part.mimetype part.disposition filename contentId
        then { st1 with attachments := st1.attachments ++
                [{ filename := filename
                   mime_type := part.mimetype
                   disposition := disposition
                   content_id := contentId
                   encoded_bytes := part.encodedBytes }] }
        else st1
      walk_parts subs (depth + 1) st2

/-- The `for child in &part.subparts` loop of `walk_mime`. -/
def walk_parts : MimeParts → Nat → WalkState → WalkState
  | .nil, _, st => st
  | .cons p ps, depth, st => walk_parts ps depth (walk_mime p depth st)

end

/-- Rust `Vec::join` with an arbitrary separator. -/
def joinWith (sep : String) : List String → String
  | [] => ""
  | [s] => s
  | s :: s2 :: ss => s ++ sep ++ joinWith sep (s2 :: ss)

/-- Embedding of `summarize_mime`: run the walk from depth 0 with empty
accumulators and join the lines. -/
def summarize_mime (part : MimePart) : String × List AttachmentMeta :=
  let st := walk_mime part 0 ⟨[], []⟩
  (if st.lines.isEmpty then "(empty MIME)" else joinWith "\n" st.lines,
   st.attachments)

/-- The summary lines of a MIME tree (the list joined in `summarize_mime`). -/
def mimeSummaryLines (part : MimePart) : List String :=
  (walk_mime part 0 ⟨[], []⟩).lines

/-! ## Sync engine (src/sync/mod.rs) -/

/-- The SELECT response the engine reads
(`Mailbox { uid_validity, uid_next, exists, highest_modseq }`). -/
structure Mailbox where
  uid_validity : Option Nat
  uid_next : Option Nat
  exists_count : Nat
  highest_modseq : Option Nat
deriving DecidableEq, Repr

/-- One `Fetch` response as the engine reads it: `fetch.uid`, the Gmail
extension attributes, debug-formatted flags, labels, `fetch.size`, and the
internal date timestamp. -/
structure FetchMeta where
  uid : Option Nat
  gm_msgid : Option String
  gm_thrid : Option String
  flags : List String
  labels : List String
  size : Option Nat
  internal_date : Option Int
deriving DecidableEq, Repr

/-- Oracle for the IMAP session: responses of `uid_search` and of the two
metadata `uid_fetch` shapes, as functions of the request. -/
structure Server where
  search : String → List Nat
  fetchMeta : List Nat → List FetchMeta
  fetchFlags : List Nat → List FetchMeta

/-- The observable actions of a folder sync, in program order. -/
inductive SyncEvent where
  | uidSearch (query : String)
  | uidFetch (uid_seq : String) (query : String)
  | locationUpdates (account_id : String) (updates : List LocationUpdate)
  | flagUpdates (account_id folder : String) (updates : List (Nat × List String))
  | fetchBodies (uids : List Nat)
  | upsertFolder (account_id folder : String) (u : FolderStateUpdate)
deriving DecidableEq, Repr

/-- Rust `slice::chunks(n)`, fuelled for kernel evaluation (`fuel ≥ length`
suffices and the wrapper passes `length`). -/
def chunksGo {α : Type} : Nat → Nat → List α → List (List α)
  | _, _, [] => []
  | 0, _, l => [l]
  | fuel + 1, n, l =>
    if n = 0 then [l] else l.take n :: chunksGo fuel n (l.drop n)

/-- Rust `slice::chunks(n)`. -/
def chunksOf {α : Type} (n : Nat) (l : List α) : List (List α) :=
  chunksGo l.length n l

/-- The metadata-only fetch attribute list of `fetch_and_handle_new_uids`. -/
def metaQueryNew : String :=
  "(UID FLAGS INTERNALDATE RFC822.SIZE ENVELOPE X-GM-MSGID X-GM-THRID X-GM-LABELS)"

/-- One entry of the `batch` vector in `fetch_and_handle_new_uids`. -/
structure BatchItem where
  uid : Nat
  message_id : String
  flags : List String
  labels : List String
  thread_id : Option String
  internal_date : Option Int
  size : Option Nat
deriving DecidableEq, Repr

/-- The fallback message id `account:folder:uid`. -/
def fallbackId (account_id folder : String) (uid : Nat) : String :=
  account_id ++ ":" ++ folder ++ ":" ++ natToString uid

/-- The per-chunk response processing of `fetch_and_handle_new_uids`: skip
responses without a UID, compute the message id (`X-GM-MSGID` or the
fallback), and collect the metadata tuple. -/
def mkBatch (server : Server) (account_id folder : String)
    (chunk : List Nat) : List BatchItem :=
  (server.fetchMeta chunk).filterMap fun f =>
    let uid := f.uid.getD 0
    if uid == 0 then none
    else some
      { uid := uid
        message_id := f.gm_msgid.getD (fallbackId account_id folder uid)
        flags := f.flags
        labels := f.labels
        thread_id := f.gm_thrid
        internal_date := f.internal_date
        size := f.size }

/-- The location-update tuple built for an already-known message id. -/
def locUpdateOf (folder : String) (b : BatchItem) : LocationUpdate :=
  { message_id := b.message_id
    folder := folder
    uid := b.uid
    flags := b.flags
    labels := b.labels
    thread_id := b.thread_id
    internal_date := b.internal_date
    size_bytes := b.size }

/-- Embedding of `SyncEngine::fetch_and_handle_new_uids`.  `S` is the oracle
for the body-fetch pipeline `fetch_and_store_new_messages` (recorded as a
`fetchBodies` event); the claims only observe which UIDs it runs on and
that it runs after the location updates. -/
def fetch_and_handle_new_uids (S : Db → List Nat → Db) (server : Server)
    (db : Db) (account_id folder : String) (uids : List Nat) (now : Int) :
    Db × List SyncEvent :=
  let chunks := chunksOf 250 uids
  let evFetch := chunks.map fun c =>
    SyncEvent.uidFetch (build_uid_sequence c) metaQueryNew
  let acc := chunks.foldl
    (fun (acc : List LocationUpdate × List Nat) c =>
      let batch := mkBatch server account_id folder c
      if batch.isEmpty then acc
      else
        let existing := load_existing_message_ids db account_id
          (batch.map fun b => b.message_id)
        batch.foldl
          (fun (acc2 : List LocationUpdate × List Nat) b =>
            if existing.contains b.message_id then
              (acc2.1 ++ [locUpdateOf folder b], acc2.2)
            else (acc2.1, acc2.2 ++ [b.uid]))
          acc)
    ([], [])
  let location_updates := acc.1
  let need_body := acc.2
  let r1 : Db × List SyncEvent :=
    if location_updates.isEmpty then (db, [])
    else (batch_update_message_location_by_id db account_id location_updates now,
          [SyncEvent.locationUpdates account_id location_updates])
  let r2 : Db × List SyncEvent :=
    if need_body.isEmpty then (r1.1, [])
    else (S r1.1 need_body, [SyncEvent.fetchBodies need_body])
  (r2.1, evFetch ++ r1.2 ++ r2.2)

/-- Embedding of `SyncEngine::fetch_and_update_flags`: fetch `(UID FLAGS)` in
chunks of 250, collect `(uid, flags)` for responses with a UID, and apply
them in one `batch_update_message_flags_by_uid` transaction. -/
def fetch_and_update_flags (server : Server) (db : Db)
    (account_id folder : String) (uids : List Nat) (now : Int) :
    Db × List SyncEvent :=
  let chunks := chunksOf 250 uids
  let evFetch := chunks.map fun c =>
    SyncEvent.uidFetch (build_uid_sequence c) "(UID FLAGS)"
  let updates := chunks.flatMap fun c =>
    (server.fetchFlags c).filterMap fun f =>
      let uid := f.uid.getD 0
      if uid == 0 then none else some (uid, f.flags)
  if updates.isEmpty then (db, evFetch)
  else (batch_update_message_flags_by_uid db account_id folder updates now,
        evFetch ++ [SyncEvent.flagUpdates account_id folder updates])

/-- Embedding of `SyncEngine::sync_folder`, starting right after SELECT (the
`mailbox` argument is the SELECT response; `cutoff_str` is the formatted
`cutoff_since` date).  Search responses are deduplicated to model the
`HashSet` collection.  Mirrors, in order: the fast-path MODSEQ exit, the
baseline full scan, and the incremental MODSEQ path. -/
def sync_folder (S : Db → List Nat → Db) (server : Server) (db : Db)
    (account_id cutoff_str folder_name : String) (mailbox : Mailbox)
    (force : Bool) (now : Int) : Db × List SyncEvent :=
  let current_uidvalidity := mailbox.uid_validity.getD 0
  let current_highestmodseq := mailbox.highest_modseq
  let current_exists := mailbox.exists_count
  let current_highest_uid :=
    Option.filter (fun u => decide (0 < u)) (mailbox.uid_next.map fun next => next - 1)
  let folder_state := (list_folders db account_id).find? fun f => f.name == folder_name
  let fastPath : Bool :=
    !force &&
      (match folder_state with
       | some st =>
         match st.highestmodseq, current_highestmodseq with
         | some stored, some current => decide (0 < stored) && (current == stored)
         | _, _ => false
       | none => false)
  if fastPath then (db, [])
  else
    let stored_modseq := (folder_state.bind fun s => s.highestmodseq).getD 0
    let stored_highest_uid := (folder_state.bind fun s => s.highest_uid).getD 0
    if stored_modseq == 0 || current_highestmodseq.isNone then
      let query := "SINCE " ++ cutoff_str
      let remote_uids := (server.search query).eraseDups
      let local_uids :=
        (load_uid_to_message_id_map_by_folder db account_id folder_name).map Prod.fst
      let new_uids := remote_uids.filter fun u => !(local_uids.contains u)
      let r1 : Db × List SyncEvent :=
        if new_uids.isEmpty then (db, [])
        else (S db new_uids, [SyncEvent.fetchBodies new_uids])
      let highest_uid :=
        (Option.orElse current_highest_uid fun _ => remote_uids.max?).getD
          stored_highest_uid
      let u : FolderStateUpdate :=
        { uidvalidity := some current_uidvalidity
          highest_uid := some highest_uid
          highestmodseq := current_highestmodseq
          exists_count := some current_exists
          last_sync_ts := some now
          last_uid_scan_ts := none }
      (upsert_folder_state r1.1 account_id folder_name u now,
       SyncEvent.uidSearch query ::
         (r1.2 ++ [SyncEvent.upsertFolder account_id folder_name u]))
    else
      let query := "SINCE " ++ cutoff_str ++ " MODSEQ " ++ natToString (stored_modseq + 1)
      let changed_uids := (server.search query).eraseDups
      if changed_uids.isEmpty then
        let highest_uid := current_highest_uid.getD stored_highest_uid
        let u : FolderStateUpdate :=
          { uidvalidity := some current_uidvalidity
            highest_uid := some highest_uid
            highestmodseq := current_highestmodseq
            exists_count := some current_exists
            last_sync_ts := some now
            last_uid_scan_ts := folder_state.bind fun s => s.last_uid_scan_ts }
        (upsert_folder_state db account_id folder_name u now,
         [SyncEvent.uidSearch query, SyncEvent.upsertFolder account_id folder_name u])
      else
        let existing_by_uid :=
          load_message_ids_by_uids db account_id folder_name changed_uids
        let new_uids := changed_uids.filter fun v => (existing_by_uid.lookup v).isNone
        let existing_uids := changed_uids.filter fun v => (existing_by_uid.lookup v).isSome
        let r1 : Db × List SyncEvent :=
          if new_uids.isEmpty then (db, [])
          else fetch_and_handle_new_uids S server db account_id folder_name new_uids now
        let r2 : Db × List SyncEvent :=
          if existing_uids.isEmpty then (r1.1, [])
          else fetch_and_update_flags server r1.1 account_id folder_name existing_uids now
        let highest_uid :=
          (Option.orElse current_highest_uid fun _ => changed_uids.max?).getD
            stored_highest_uid
        let u : FolderStateUpdate :=
          { uidvalidity := some current_uidvalidity
            highest_uid := some highest_uid
            highestmodseq := current_highestmodseq
            exists_count := some current_exists
            last_sync_ts := some now
            last_uid_scan_ts := folder_state.bind fun s => s.last_uid_scan_ts }
        (upsert_folder_state r2.1 account_id folder_name u now,
         SyncEvent.uidSearch query ::
           (r1.2 ++ r2.2 ++ [SyncEvent.upsertFolder account_id folder_name u]))

/-! ## Theorems -/

/-- An all-zero message row used by concrete scenarios; only the key fields
vary. -/
def mkMsgRow (id account_id folder : String) (uid : Option Nat)
    (raw_hash : Option String) : MessageRow :=
  { id := id, account_id := account_id, folder := folder, uid := uid
    thread_id := none, internal_date := none, subject := none
    from_addr := none, to_addrs := none, cc_addrs := none, bcc_addrs := none
    flags := [], labels := [], has_attachments := false, size_bytes := none
    raw_hash := raw_hash, created_at := 0, updated_at := 0 }

/-! ### Claim C9 — data-directory fallback order -/

/-- Environment for the C9 counterexample: `$OTTO_DATA_DIR` is set to `/cfg`
but `/cfg` cannot be created; home and cwd are available and writable. -/
def c9Env : FsEnv :=
  { otto_data_dir := some "/cfg"
    home_dir := some "/home/u"
    current_dir := some "/cwd"
    create_dir_ok := fun p => !(p == "/cfg") }

/-- Claim C9 counterexample: with `$OTTO_DATA_DIR` set but not writable the
store open fails with an error; it does not fall back to `$HOME/otto` nor to
`./otto-data` as the claim states. -/
theorem default_data_dir_cex :
    default_data_dir c9Env = .error "creating OTTO_DATA_DIR at /cfg" ∧
    default_data_dir c9Env ≠ .ok (pathJoin "/home/u" "otto") ∧
    default_data_dir c9Env ≠ .ok (pathJoin "/cwd" "otto-data") := by
  refine ⟨rfl, ?_, ?_⟩ <;> exact fun h => Except.noConfusion h

/-- Claim C9 (amended): a missing data directory is created on open
(`create_dir_ok` is consulted on the chosen directory and success means the
directory exists).  The fallback chain `$HOME/otto` → `./otto-data` applies
only when `$OTTO_DATA_DIR` is unset; a set but non-creatable `$OTTO_DATA_DIR`
makes the open fail instead of falling back.  The five scenarios (set-good,
set-bad, unset-home-good, unset-home-bad-cwd-good, unset-no-home-cwd-good)
are quantified separately. -/
theorem default_data_dir_fallback_spec
    (e1 : FsEnv) (d1 : String)
    (h1 : e1.otto_data_dir = some d1) (h1ok : e1.create_dir_ok d1 = true)
    (e2 : FsEnv) (d2 : String)
    (h2 : e2.otto_data_dir = some d2) (h2bad : e2.create_dir_ok d2 = false)
    (e3 : FsEnv) (h3 : e3.otto_data_dir = none) (hd3 : String)
    (h3h : e3.home_dir = some hd3)
    (h3ok : e3.create_dir_ok (pathJoin hd3 "otto") = true)
    (e4 : FsEnv) (h4 : e4.otto_data_dir = none) (hd4 cw4 : String)
    (h4h : e4.home_dir = some hd4)
    (h4bad : e4.create_dir_ok (pathJoin hd4 "otto") = false)
    (h4c : e4.current_dir = some cw4)
    (h4ok : e4.create_dir_ok (pathJoin cw4 "otto-data") = true)
    (e5 : FsEnv) (h5 : e5.otto_data_dir = none) (cw5 : String)
    (h5h : e5.home_dir = none) (h5c : e5.current_dir = some cw5)
    (h5ok : e5.create_dir_ok (pathJoin cw5 "otto-data") = true) :
    default_data_dir e1 = .ok d1 ∧
    default_data_dir e2 = .error ("creating OTTO_DATA_DIR at " ++ d2) ∧
    default_data_dir e3 = .ok (pathJoin hd3 "otto") ∧
    default_data_dir e4 = .ok (pathJoin cw4 "otto-data") ∧
    default_data_dir e5 = .ok (pathJoin cw5 "otto-data") := by
  refine ⟨?_, ?_, ?_, ?_, ?_⟩
  · simp [default_data_dir, h1, h1ok]
  · simp [default_data_dir, h2, h2bad]
  · simp [default_data_dir, h3, h3h, h3ok]
  · simp [default_data_dir, h4, h4h, h4bad, h4c, h4ok]
  · simp [default_data_dir, h5, h5h, h5c, h5ok]

/-- Witness for `default_data_dir_fallback_spec` at concrete environments. -/
theorem default_data_dir_fallback_spec_witness :
    default_data_dir ⟨some "/cfg", some "/h", some "/c", fun _ => true⟩ = .ok "/cfg" ∧
    default_data_dir ⟨some "/cfg", some "/h", some "/c", fun p => !(p == "/cfg")⟩ =
      .error ("creating OTTO_DATA_DIR at " ++ "/cfg") ∧
    default_data_dir ⟨none, some "/h", some "/c", fun _ => true⟩ =
      .ok (pathJoin "/h" "otto") ∧
    default_data_dir ⟨none, some "/h", some "/c", fun p => !(p == "/h/otto")⟩ =
      .ok (pathJoin "/c" "otto-data") ∧
    default_data_dir ⟨none, none, some "/c", fun _ => true⟩ =
      .ok (pathJoin "/c" "otto-data") :=
  default_data_dir_fallback_spec
    ⟨some "/cfg", some "/h", some "/c", fun _ => true⟩ "/cfg" rfl rfl
    ⟨some "/cfg", some "/h", some "/c", fun p => !(p == "/cfg")⟩ "/cfg" rfl (by decide)
    ⟨none, some "/h", some "/c", fun _ => true⟩ rfl "/h" rfl rfl
    ⟨none, some "/h", some "/c", fun p => !(p == "/h/otto")⟩ rfl "/h" "/c" rfl
      (by decide) rfl (by decide)
    ⟨none, none, some "/c", fun _ => true⟩ rfl "/c" rfl rfl rfl

/-! ### Claims C5 and C10 — `batch_upsert_messages_with_bodies` -/

/-- Claim C10: an empty `messages` list returns success immediately with the
store untouched, for every `bodies` list — the length precondition is only
reached when `messages` is non-empty. -/
theorem batch_upsert_empty_messages_ok (stepOk : Nat → Bool) (db : Db)
    (bodies : List BodyRow) :
    batch_upsert_messages_with_bodies stepOk db [] bodies = .ok db := rfl

/-- A body row for concrete scenarios. -/
def mkBodyRow (message_id : String) : BodyRow :=
  { message_id := message_id, raw_rfc822 := none, sanitized_text := none
    mime_summary := none, attachments_json := none, sanitized_at := none }

/-- Claim C5 counterexample: `messages = []`, `bodies = [b]` violates
`len(messages) == len(bodies)` yet returns success, not an error. -/
theorem batch_upsert_mismatch_cex :
    List.length ([] : List MessageRow) ≠ List.length [mkBodyRow "m"] ∧
    batch_upsert_messages_with_bodies (fun _ => true) ⟨[], [], []⟩ []
      [mkBodyRow "m"] = .ok ⟨[], [], []⟩ :=
  ⟨by decide, rfl⟩

theorem runBatchSteps_ok (stepOk : Nat → Bool) :
    ∀ (pairs : List (MessageRow × BodyRow)) (d d2 : Db) (i : Nat),
      runBatchSteps stepOk d pairs i = .ok d2 → d2 = applyBatch d pairs := by
  intro pairs
  induction pairs with
  | nil =>
    intro d d2 i h
    simp only [runBatchSteps] at h
    cases h
    rfl
  | cons p ps ih =>
    intro d d2 i h
    simp only [runBatchSteps] at h
    by_cases h1 : stepOk i = false
    · simp [h1] at h
    · rw [Bool.not_eq_false] at h1
      simp only [h1, Bool.not_true, Bool.false_eq_true, if_false] at h
      by_cases h2 : stepOk (i + 1) = false
      · simp [h2] at h
      · rw [Bool.not_eq_false] at h2
        simp only [h2, Bool.not_true, Bool.false_eq_true, if_false] at h
        exact ih _ _ _ h

/-- Claim C5 (amended): when `messages` is non-empty, a length mismatch
returns the mismatch error without writing; and every call either fails (the
transaction publishes nothing) or succeeds with exactly the whole batch
applied — no partial batch is observable. -/
theorem batch_upsert_batch_spec
    (stepOk1 : Nat → Bool) (db1 : Db) (m1 : List MessageRow) (b1 : List BodyRow)
    (hne : m1 ≠ []) (hlen : m1.length ≠ b1.length)
    (stepOk2 : Nat → Bool) (db2 : Db) (m2 : List MessageRow) (b2 : List BodyRow) :
    batch_upsert_messages_with_bodies stepOk1 db1 m1 b1 =
      .error "messages and bodies length mismatch" ∧
    (batch_upsert_messages_with_bodies stepOk2 db2 m2 b2 =
        .ok (applyBatch db2 (m2.zip b2)) ∨
      (batch_upsert_messages_with_bodies stepOk2 db2 m2 b2).isOk = false) := by
  constructor
  · have h1 : m1.isEmpty = false := by
      cases m1 with
      | nil => exact absurd rfl hne
      | cons a l => rfl
    simp [batch_upsert_messages_with_bodies, h1, bne_iff_ne, hlen]
  · by_cases he : m2.isEmpty
    · left
      have hnil : m2 = [] := by
        cases m2 with
        | nil => rfl
        | cons a l => simp [List.isEmpty] at he
      subst hnil
      simp [batch_upsert_messages_with_bodies, applyBatch]
    · have he' : m2.isEmpty = false := by
        cases h : m2.isEmpty with
        | false => rfl
        | true => exact absurd h he
      by_cases hl : m2.length = b2.length
      · have hbne : (m2.length != b2.length) = false := by simp [bne_iff_ne, hl]
        simp only [batch_upsert_messages_with_bodies, he', Bool.false_eq_true,
          if_false, hbne]
        cases hres : runBatchSteps stepOk2 db2 (m2.zip b2) 0 with
        | error e => right; rfl
        | ok d =>
          cases hc : stepOk2 (2 * m2.length) with
          | true =>
            left
            simp only [hc, if_true]
            rw [runBatchSteps_ok stepOk2 _ _ _ _ hres]
          | false => right; simp [hc, Except.isOk, Except.toBool]
      · right
        have hbne : (m2.length != b2.length) = true := by simp [bne_iff_ne, hl]
        simp [batch_upsert_messages_with_bodies, he', hbne, Except.isOk,
          Except.toBool]

/-- Witness for `batch_upsert_batch_spec`: a mismatched non-empty call errors,
and a successful two-row call applies the whole batch. -/
theorem batch_upsert_batch_spec_witness :
    batch_upsert_messages_with_bodies (fun _ => true) ⟨[], [], []⟩
      [mkMsgRow "1" "a" "F" none none] [] =
      .error "messages and bodies length mismatch" ∧
    (batch_upsert_messages_with_bodies (fun _ => true) ⟨[], [], []⟩
        [mkMsgRow "1" "a" "F" none none] [mkBodyRow "1"] =
        .ok (applyBatch ⟨[], [], []⟩
          ([mkMsgRow "1" "a" "F" none none].zip [mkBodyRow "1"])) ∨
      (batch_upsert_messages_with_bodies (fun _ => true) ⟨[], [], []⟩
          [mkMsgRow "1" "a" "F" none none] [mkBodyRow "1"]).isOk = false) :=
  batch_upsert_batch_spec (fun _ => true) ⟨[], [], []⟩
    [mkMsgRow "1" "a" "F" none none] [] (by decide) (by decide)
    (fun _ => true) ⟨[], [], []⟩ [mkMsgRow "1" "a" "F" none none] [mkBodyRow "1"]

/-! ### Claim C4 — `dedupe_fallback_messages_by_raw_hash` -/

/-- Two fallback rows (ids contain `:`) that share `(account_id, raw_hash)`;
no all-digits id exists anywhere. -/
def c4Db : Db :=
  ⟨[], [mkMsgRow "1:a" "acct" "INBOX" none (some "h"),
        mkMsgRow "1:b" "acct" "INBOX" none (some "h")], []⟩

/-- Claim C4 / bug evidence: `GLOB '[0-9]*'` only requires a leading digit,
so each of the two fallback rows acts as the "stable" row for the other:
the call deletes both rows and reports 2 deletions although no all-digits
(stable) id exists for that `(account_id, raw_hash)` — contradicting the
function's own doc comment ("only removes legacy ids when a stable numeric
id row exists") and the claim. -/
theorem dedupe_fallback_glob_bug :
    (c4Db.messages.all fun m => !(m.id.data.all Char.isDigit)) = true ∧
    dedupe_candidates c4Db "acct" 10 = ["1:b", "1:a"] ∧
    (dedupe_fallback_messages_by_raw_hash c4Db "acct" 10).2 = 2 ∧
    (dedupe_fallback_messages_by_raw_hash c4Db "acct" 10).1.messages = [] := by
  refine ⟨?_, ?_, ?_, ?_⟩ <;> decide

/-! ### Claim C6 — `build_uid_sequence` -/

/-- Claim C6: `build_uid_sequence` renders a non-empty UID list as a
comma-separated decimal list whose denoted UID set is exactly the input set,
invariant under any permutation of the input; the empty input yields `"1"`. -/
theorem build_uid_sequence_perm_set (l l2 : List Nat) (h : l ≠ [])
    (hp : l.Perm l2) :
    build_uid_sequence [] = "1" ∧
    uidSetDenoted (build_uid_sequence l) = l.toFinset ∧
    uidSetDenoted (build_uid_sequence l2) = uidSetDenoted (build_uid_sequence l) := by
  have h2 : l2 ≠ [] := by
    intro he
    subst he
    exact h hp.eq_nil
  refine ⟨rfl, uidSetDenoted_build l h, ?_⟩
  rw [uidSetDenoted_build l2 h2, uidSetDenoted_build l h,
    List.toFinset_eq_of_perm l l2 hp]

/-- Witness for `build_uid_sequence_perm_set` at `[2,1] ~ [1,2]`. -/
theorem build_uid_sequence_perm_set_witness :
    build_uid_sequence [] = "1" ∧
    uidSetDenoted (build_uid_sequence [2, 1]) = ([2, 1] : List Nat).toFinset ∧
    uidSetDenoted (build_uid_sequence [1, 2]) =
      uidSetDenoted (build_uid_sequence [2, 1]) :=
  build_uid_sequence_perm_set [2, 1] [1, 2] (by decide) (by decide)

/-! ### Claim C7 — MIME walk caps -/

mutual

theorem walk_mime_lines_le : ∀ (p : MimePart) (d : Nat) (st : WalkState),
    st.lines.length ≤ 301 → (walk_mime p d st).lines.length ≤ 301
  | .mk mt cs disp dp cp cid eb subs, d, st, h => by
    rw [walk_mime]
    split
    · exact h
    · rename_i hguard
      simp only [Bool.or_eq_true, decide_eq_true_eq, not_or] at hguard
      apply walk_parts_lines_le subs (d + 1)
      split <;> simp only [List.length_append, List.length_cons,
        List.length_nil] <;> omega

theorem walk_parts_lines_le : ∀ (ps : MimeParts) (d : Nat) (st : WalkState),
    st.lines.length ≤ 301 → (walk_parts ps d st).lines.length ≤ 301
  | .nil, _, _, h => h
  | .cons p ps, d, st, h =>
    walk_parts_lines_le ps d (walk_mime p d st) (walk_mime_lines_le p d st h)

end

/-- A visit whose guard fires leaves the state untouched: neither a summary
line nor an attachment is recorded for it or anything below it. -/
theorem walk_mime_guard (p : MimePart) (d : Nat) (st : WalkState)
    (h : 300 < st.lines.length ∨ 20 < d) : walk_mime p d st = st := by
  cases p with
  | mk mt cs disp dp cp cid eb subs =>
    rw [walk_mime]
    rw [if_pos]
    simp only [Bool.or_eq_true, decide_eq_true_eq]
    exact h

/-- Claim C7 (amended): the summary walk emits at most 301 lines (the guard
`lines.len() > 300` still admits a 301st line), visits parts to depth at most
20, and every part reached beyond either cap contributes nothing — no summary
line and no attachment — for itself or its subtree. -/
theorem mime_walk_caps (q p : MimePart) (d : Nat) (st : WalkState)
    (h : 300 < st.lines.length ∨ 20 < d) :
    (mimeSummaryLines q).length ≤ 301 ∧
    walk_mime p d st = st := by
  constructor
  · exact walk_mime_lines_le q 0 ⟨[], []⟩ (by simp)
  · exact walk_mime_guard p d st h

/-- Witness for `mime_walk_caps`: a single leaf, and a guarded visit at depth
21 that changes nothing. -/
theorem mime_walk_caps_witness :
    (mimeSummaryLines (.mk "x" "" .inline [] [] none 0 .nil)).length ≤ 301 ∧
    walk_mime (.mk "x" "" .inline [] [] none 0 .nil) 21 ⟨["l"], []⟩ =
      ⟨["l"], []⟩ :=
  mime_walk_caps (.mk "x" "" .inline [] [] none 0 .nil)
    (.mk "x" "" .inline [] [] none 0 .nil) 21 ⟨["l"], []⟩ (Or.inr (by decide))

/-- A leaf part for the C7 counterexample. -/
def c7Leaf : MimePart := .mk "x" "" .inline [] [] none 0 .nil

/-- A subpart list of `n` copies of `c7Leaf`. -/
def repLeaves : Nat → MimeParts
  | 0 => .nil
  | n + 1 => .cons c7Leaf (repLeaves n)

/-- A flat multipart with 301 children: the root and the first 300 children
each push a line, so the walk emits 301 lines. -/
def c7Tree : MimePart := .mk "multipart/mixed" "" .inline [] [] none 0 (repLeaves 301)

theorem walk_parts_guarded : ∀ (ps : MimeParts) (d : Nat) (st : WalkState),
    300 < st.lines.length → walk_parts ps d st = st
  | .nil, _, _, _ => rfl
  | .cons p tail, d, st, h => by
    rw [walk_parts, walk_mime_guard p d st (Or.inl h)]
    exact walk_parts_guarded tail d st h

theorem walk_mime_c7Leaf (d : Nat) (st : WalkState)
    (hL : st.lines.length ≤ 300) (hd : d ≤ 20) :
    (walk_mime c7Leaf d st).lines.length = st.lines.length + 1 := by
  have hg : (decide (300 < st.lines.length) || decide (20 < d)) = false := by
    simp only [Bool.or_eq_false_iff, decide_eq_false_iff_not, not_lt]
    omega
  simp only [c7Leaf, walk_mime, hg, Bool.false_eq_true, if_false]
  split <;> simp [walk_parts]

theorem walk_parts_repLeaves : ∀ (n : Nat) (st : WalkState) (d : Nat),
    d ≤ 20 → st.lines.length ≤ 301 →
    (walk_parts (repLeaves n) d st).lines.length = min (st.lines.length + n) 301 := by
  intro n
  induction n with
  | zero =>
    intro st d _ hL
    simp only [repLeaves]
    show st.lines.length = min (st.lines.length + 0) 301
    omega
  | succ n ih =>
    intro st d hd hL
    simp only [repLeaves]
    rw [walk_parts]
    by_cases h300 : st.lines.length ≤ 300
    · have hstep := walk_mime_c7Leaf d st h300 hd
      have := ih (walk_mime c7Leaf d st) d hd (by omega)
      rw [this, hstep]
      omega
    · have h301 : 300 < st.lines.length := by omega
      rw [walk_mime_guard c7Leaf d st (Or.inl h301),
        walk_parts_guarded (repLeaves n) d st h301]
      omega

/-- Claim C7 counterexample: the walk emits 301 summary lines on `c7Tree`,
refuting the `at most 300 lines` cap as stated. -/
theorem mime_walk_301_lines_cex :
    (mimeSummaryLines c7Tree).length = 301 ∧
    ¬((mimeSummaryLines c7Tree).length ≤ 300) := by
  have hmain : (mimeSummaryLines c7Tree).length = 301 := by
    have hone : ∀ st2 : WalkState, st2.lines.length = 1 →
        (walk_parts (repLeaves 301) (0 + 1) st2).lines.length = 301 := by
      intro st2 h1
      rw [walk_parts_repLeaves 301 st2 (0 + 1) (by omega) (by omega)]
      omega
    simp only [mimeSummaryLines, c7Tree, walk_mime]
    rw [if_neg (by decide)]
    rw [if_neg (by decide)]
    exact hone _ (by simp)
  exact ⟨hmain, by omega⟩

/-! ### Claim C1 — fast-path exit on MODSEQ match -/

/-- Claim C1: with `force == false` and stored and current `highestmodseq`
present, equal and nonzero, `sync_folder` returns right after SELECT: no UID
SEARCH, no UID FETCH, no store write — the result is the unchanged store and
an empty event trace. -/
theorem sync_folder_fast_path_skips
    (S : Db → List Nat → Db) (server : Server) (db : Db)
    (account_id cutoff_str folder_name : String) (mailbox : Mailbox) (now : Int)
    (st : FolderRow) (m : Nat)
    (hfind : (list_folders db account_id).find? (fun f => f.name == folder_name) =
      some st)
    (hstored : st.highestmodseq = some m) (hm : 0 < m)
    (hcur : mailbox.highest_modseq = some m) :
    sync_folder S server db account_id cutoff_str folder_name mailbox false now =
      (db, []) := by
  simp [sync_folder, hfind, hstored, hcur, hm]

/-- The folder row of the C1 witness scenario. -/
def c1Folder : FolderRow :=
  { account_id := "a", name := "INBOX", uidvalidity := some 42
    highest_uid := some 10, highestmodseq := some 5, exists_count := some 3
    last_sync_ts := some 1, last_uid_scan_ts := none
    created_at := 0, updated_at := 0 }

/-- A server oracle with empty responses. -/
def trivServer : Server :=
  { search := fun _ => [], fetchMeta := fun _ => [], fetchFlags := fun _ => [] }

/-- A body-fetch oracle that leaves the store unchanged. -/
def idS : Db → List Nat → Db := fun d _ => d

/-- Witness for `sync_folder_fast_path_skips`: stored and current
`HIGHESTMODSEQ` are both 5. -/
theorem sync_folder_fast_path_skips_witness :
    sync_folder idS trivServer ⟨[c1Folder], [], []⟩ "a" "01-Dec-2025" "INBOX"
      ⟨some 42, some 11, 3, some 5⟩ false 7 = (⟨[c1Folder], [], []⟩, []) :=
  sync_folder_fast_path_skips idS trivServer ⟨[c1Folder], [], []⟩ "a"
    "01-Dec-2025" "INBOX" ⟨some 42, some 11, 3, some 5⟩ 7 c1Folder 5
    (by decide) (by decide) (by decide) (by decide)

/-! ### Claim C2 — baseline (full-scan) path -/

/-- After `upsert_folder_state`, every row carrying the upserted
`(account_id, name)` key with exactly the updated baseline columns. -/
theorem upsert_folder_state_mem (db : Db) (acc name : String)
    (u : FolderStateUpdate) (now : Int) (f : FolderRow)
    (hf : f ∈ (upsert_folder_state db acc name u now).folders)
    (hacc : f.account_id = acc) (hname : f.name = name) :
    f.uidvalidity = u.uidvalidity ∧ f.highest_uid = u.highest_uid ∧
    f.highestmodseq = u.highestmodseq ∧ f.exists_count = u.exists_count ∧
    f.last_sync_ts = u.last_sync_ts ∧ f.last_uid_scan_ts = u.last_uid_scan_ts := by
  unfold upsert_folder_state at hf
  by_cases hany : (db.folders.any fun g => g.account_id == acc && g.name == name) = true
  · rw [if_pos hany] at hf
    simp only [List.mem_map] at hf
    obtain ⟨g, _, hg⟩ := hf
    by_cases hkey : (g.account_id == acc && g.name == name) = true
    · rw [if_pos hkey] at hg
      subst hg
      exact ⟨rfl, rfl, rfl, rfl, rfl, rfl⟩
    · rw [if_neg hkey] at hg
      subst hg
      exact absurd (by simp [hacc, hname]) hkey
  · rw [if_neg hany] at hf
    rw [Bool.not_eq_true, List.any_eq_false] at hany
    simp only [List.mem_append, List.mem_singleton] at hf
    rcases hf with hf | hf
    · exact absurd (by simp [hacc, hname]) (hany f hf)
    · subst hf
      exact ⟨rfl, rfl, rfl, rfl, rfl, rfl⟩

/-- Filtering out the members of `loc` is taking the set difference. -/
theorem filter_not_contains_toFinset (l loc : List Nat) :
    (l.filter fun u => !(loc.contains u)).toFinset =
      l.toFinset \ loc.toFinset := by
  ext a
  simp [List.mem_filter, Finset.mem_sdiff, List.elem_iff]

/-- The `UID SEARCH` query of the baseline path. -/
def baselineQuery (cutoff_str : String) : String :=
  "SINCE " ++ cutoff_str

/-- The `remote_uids` set: the deduplicated baseline search result. -/
def baselineRemote (server : Server) (cutoff_str : String) : List Nat :=
  (server.search (baselineQuery cutoff_str)).eraseDups

/-- The `local_uids` set: the key set of the folder's local UID-to-id map. -/
def localUidKeys (db : Db) (account_id folder : String) : List Nat :=
  (load_uid_to_message_id_map_by_folder db account_id folder).map Prod.fst

/-- The set `new_uids = remote_uids \ local_uids` in search-result order. -/
def baselineNew (server : Server) (db : Db)
    (account_id cutoff_str folder : String) : List Nat :=
  (baselineRemote server cutoff_str).filter fun u =>
    !((localUidKeys db account_id folder).contains u)

/-- The stored `highest_uid` baseline (0 when absent). -/
def storedHighestUid (db : Db) (account_id folder : String) : Nat :=
  ((((list_folders db account_id).find? fun g => g.name == folder).bind
    fun s => s.highest_uid)).getD 0

/-- The `highest_uid` the baseline pass stores, as the code computes it:
`uid_next − 1` when `uid_next` is present and at least 2, else the maximum of
`remote_uids`, else the previously stored `highest_uid`. -/
def baselineHighestUid (server : Server) (db : Db)
    (account_id cutoff_str folder : String) (mailbox : Mailbox) : Nat :=
  let fallback :=
    match (baselineRemote server cutoff_str).max? with
    | some m => m
    | none => storedHighestUid db account_id folder
  match mailbox.uid_next with
  | some n => if 2 ≤ n then n - 1 else fallback
  | none => fallback

/-- The baseline `FolderStateUpdate` of a baseline pass. -/
def baselineUpdate (server : Server) (db : Db)
    (account_id cutoff_str folder : String) (mailbox : Mailbox)
    (now : Int) : FolderStateUpdate :=
  { uidvalidity := some (mailbox.uid_validity.getD 0)
    highest_uid := some (baselineHighestUid server db account_id cutoff_str folder mailbox)
    highestmodseq := mailbox.highest_modseq
    exists_count := some mailbox.exists_count
    last_sync_ts := some now
    last_uid_scan_ts := none }

theorem baselineHighestUid_eq (server : Server) (db : Db)
    (account_id cutoff_str folder : String) (mailbox : Mailbox) :
    baselineHighestUid server db account_id cutoff_str folder mailbox =
    (Option.orElse
        (Option.filter (fun u => decide (0 < u))
          (mailbox.uid_next.map fun next => next - 1))
        fun _ => ((server.search ("SINCE " ++ cutoff_str)).eraseDups).max?).getD
      ((((list_folders db account_id).find? fun g => g.name == folder).bind
        fun s => s.highest_uid).getD 0) := by
  unfold baselineHighestUid baselineRemote baselineQuery storedHighestUid
  cases hn : mailbox.uid_next with
  | none =>
    simp only [Option.map_none', Option.filter, Option.orElse]
    cases ((server.search ("SINCE " ++ cutoff_str)).eraseDups).max? <;> rfl
  | some n =>
    by_cases h2 : 2 ≤ n
    · have hd : decide (0 < n - 1) = true := by simp; omega
      simp [Option.filter, Option.orElse, hd, h2, show 1 < n by omega]
    · have hd : decide (0 < n - 1) = false := by simp; omega
      simp only [Option.map_some', Option.filter, hd, Bool.false_eq_true,
        if_false, Option.orElse, h2]
      cases ((server.search ("SINCE " ++ cutoff_str)).eraseDups).max? <;> rfl

/-- Claim C2 (amended): whenever the stored `highestmodseq` is 0/absent or
the server did not report one, `sync_folder` takes the baseline path: it
issues exactly one `UID SEARCH SINCE <cutoff>`, invokes the body-fetch path
on exactly `remote_uids \ local_uids` (and not at all when that difference
is empty), and then writes the baseline
`(uidvalidity = M.uidvalidity (0 when absent),
highest_uid = M.uid_next − 1 when uid_next ≥ 2, else max(remote_uids), else
the previously stored highest_uid, highestmodseq = M.highest_modseq,
exists_count = M.exists, last_sync_ts = now)` — in particular the stored
`highestmodseq` afterwards equals the server-reported `HIGHESTMODSEQ`. -/
theorem sync_folder_baseline_spec
    (S : Db → List Nat → Db) (server : Server) (db : Db)
    (account_id cutoff_str folder_name : String) (mailbox : Mailbox)
    (force : Bool) (now : Int) (f : FolderRow)
    (hmode : ((((list_folders db account_id).find? fun g => g.name == folder_name).bind
        fun s => s.highestmodseq).getD 0 = 0) ∨ mailbox.highest_modseq = none)
    (hf : f ∈ (sync_folder S server db account_id cutoff_str folder_name
        mailbox force now).1.folders)
    (hacc : f.account_id = account_id) (hname : f.name = folder_name) :
    sync_folder S server db account_id cutoff_str folder_name mailbox force now =
      (upsert_folder_state
        (if (baselineNew server db account_id cutoff_str folder_name).isEmpty
         then db
         else S db (baselineNew server db account_id cutoff_str folder_name))
        account_id folder_name
        (baselineUpdate server db account_id cutoff_str folder_name mailbox now)
        now,
       SyncEvent.uidSearch (baselineQuery cutoff_str) ::
        ((if (baselineNew server db account_id cutoff_str folder_name).isEmpty
          then []
          else [SyncEvent.fetchBodies
            (baselineNew server db account_id cutoff_str folder_name)]) ++
         [SyncEvent.upsertFolder account_id folder_name
           (baselineUpdate server db account_id cutoff_str folder_name mailbox now)])) ∧
    (baselineNew server db account_id cutoff_str folder_name).toFinset =
      (baselineRemote server cutoff_str).toFinset \
        (localUidKeys db account_id folder_name).toFinset ∧
    f.highestmodseq = mailbox.highest_modseq ∧
    f.uidvalidity = some (mailbox.uid_validity.getD 0) ∧
    f.highest_uid = some (baselineHighestUid server db account_id cutoff_str
      folder_name mailbox) ∧
    f.exists_count = some mailbox.exists_count ∧
    f.last_sync_ts = some now ∧
    f.last_uid_scan_ts = none := by
  have hrun : sync_folder S server db account_id cutoff_str folder_name mailbox
      force now =
      (upsert_folder_state
        (if (baselineNew server db account_id cutoff_str folder_name).isEmpty
         then db
         else S db (baselineNew server db account_id cutoff_str folder_name))
        account_id folder_name
        (baselineUpdate server db account_id cutoff_str folder_name mailbox now)
        now,
       SyncEvent.uidSearch (baselineQuery cutoff_str) ::
        ((if (baselineNew server db account_id cutoff_str folder_name).isEmpty
          then []
          else [SyncEvent.fetchBodies
            (baselineNew server db account_id cutoff_str folder_name)]) ++
         [SyncEvent.upsertFolder account_id folder_name
           (baselineUpdate server db account_id cutoff_str folder_name mailbox now)])) := by
    simp only [sync_folder]
    split
    · rename_i hfast
      exfalso
      rw [Bool.and_eq_true] at hfast
      obtain ⟨-, hmatch⟩ := hfast
      cases hfind : (list_folders db account_id).find? fun g => g.name == folder_name with
      | none => rw [hfind] at hmatch; simp at hmatch
      | some st =>
        rw [hfind] at hmatch
        cases hsm : st.highestmodseq with
        | none => simp [hsm] at hmatch
        | some k =>
          cases hc : mailbox.highest_modseq with
          | none => simp [hsm, hc] at hmatch
          | some c =>
            simp only [hsm, hc, Bool.and_eq_true, decide_eq_true_eq,
              beq_iff_eq] at hmatch
            obtain ⟨hk, hck⟩ := hmatch
            rcases hmode with h0 | hnone
            · rw [hfind] at h0
              simp [hsm] at h0
              omega
            · rw [hnone] at hc
              exact Option.noConfusion hc
    · split
      · simp only [baselineNew, baselineRemote, baselineQuery, localUidKeys,
          baselineUpdate]
        rw [baselineHighestUid_eq]
        split <;> rfl
      · rename_i hbase
        exfalso
        apply hbase
        rcases hmode with h0 | hnone
        · rw [Bool.or_eq_true, beq_iff_eq]
          exact Or.inl h0
        · rw [Bool.or_eq_true]
          right
          rw [hnone]
          rfl
  refine ⟨hrun, ?_, ?_⟩
  · exact filter_not_contains_toFinset _ _
  · rw [hrun] at hf
    obtain ⟨h1, h2, h3, h4, h5, h6⟩ :=
      upsert_folder_state_mem _ _ _ _ _ f hf hacc hname
    exact ⟨h3, h1, h2, h4, h5, h6⟩

/-- Server for the C2 counterexample: the baseline search returns UID 3. -/
def c2Server : Server :=
  { search := fun _ => [3], fetchMeta := fun _ => [], fetchFlags := fun _ => [] }

/-- Claim C2 counterexample: with `uid_next = Some(1)` (present!) and
`remote_uids = {3}` on a fresh folder, the stored baseline `highest_uid` is 3
(the maximum of `remote_uids`), not `uid_next − 1 = 0` as the claim's formula
`highest_uid = M.uid_next − 1 if present` requires: the code keeps
`uid_next − 1` only when it is positive. -/
theorem sync_folder_baseline_highest_uid_cex :
    (⟨some 42, some 1, 1, some 1000⟩ : Mailbox).uid_next = some 1 ∧
    ((sync_folder idS c2Server ⟨[], [], []⟩ "a" "01-Dec-2025" "INBOX"
        ⟨some 42, some 1, 1, some 1000⟩ false 7).1.folders.map fun g =>
      (g.name, g.highest_uid, g.highestmodseq)) =
      [("INBOX", some 3, some 1000)] ∧
    some (3 : Nat) ≠ some ((1 : Nat) - 1) := by
  refine ⟨rfl, by decide, by decide⟩

/-- Server for the C2 witness: the baseline search returns `[1,2,3]`. -/
def c2wServer : Server :=
  { search := fun _ => [1, 2, 3], fetchMeta := fun _ => [], fetchFlags := fun _ => [] }

/-- Mailbox of the C2 witness (spec scenario S-A). -/
def c2wMailbox : Mailbox := ⟨some 42, some 11, 3, some 1000⟩

/-- The folder row the C2 witness run stores. -/
def c2wRow : FolderRow :=
  { account_id := "a", name := "INBOX", uidvalidity := some 42
    highest_uid := some 10, highestmodseq := some 1000, exists_count := some 3
    last_sync_ts := some 7, last_uid_scan_ts := none
    created_at := 7, updated_at := 7 }

/-- Witness for `sync_folder_baseline_spec` on a fresh store (scenario S-A). -/
theorem sync_folder_baseline_spec_witness :
    (sync_folder idS c2wServer ⟨[], [], []⟩ "a" "01-Dec-2025" "INBOX" c2wMailbox
        false 7 =
      (upsert_folder_state
        (if (baselineNew c2wServer ⟨[], [], []⟩ "a" "01-Dec-2025" "INBOX").isEmpty
         then ⟨[], [], []⟩
         else idS ⟨[], [], []⟩
           (baselineNew c2wServer ⟨[], [], []⟩ "a" "01-Dec-2025" "INBOX"))
        "a" "INBOX"
        (baselineUpdate c2wServer ⟨[], [], []⟩ "a" "01-Dec-2025" "INBOX"
          c2wMailbox 7) 7,
       SyncEvent.uidSearch (baselineQuery "01-Dec-2025") ::
        ((if (baselineNew c2wServer ⟨[], [], []⟩ "a" "01-Dec-2025" "INBOX").isEmpty
          then []
          else [SyncEvent.fetchBodies
            (baselineNew c2wServer ⟨[], [], []⟩ "a" "01-Dec-2025" "INBOX")]) ++
         [SyncEvent.upsertFolder "a" "INBOX"
           (baselineUpdate c2wServer ⟨[], [], []⟩ "a" "01-Dec-2025" "INBOX"
             c2wMailbox 7)]))) ∧
    (baselineNew c2wServer ⟨[], [], []⟩ "a" "01-Dec-2025" "INBOX").toFinset =
      (baselineRemote c2wServer "01-Dec-2025").toFinset \
        (localUidKeys ⟨[], [], []⟩ "a" "INBOX").toFinset ∧
    c2wRow.highestmodseq = c2wMailbox.highest_modseq ∧
    c2wRow.uidvalidity = some (c2wMailbox.uid_validity.getD 0) ∧
    c2wRow.highest_uid =
      some (baselineHighestUid c2wServer ⟨[], [], []⟩ "a" "01-Dec-2025" "INBOX"
        c2wMailbox) ∧
    c2wRow.exists_count = some c2wMailbox.exists_count ∧
    c2wRow.last_sync_ts = some 7 ∧
    c2wRow.last_uid_scan_ts = none :=
  sync_folder_baseline_spec idS c2wServer ⟨[], [], []⟩ "a" "01-Dec-2025" "INBOX"
    c2wMailbox false 7 c2wRow (Or.inl (by decide)) (by decide) rfl rfl

/-! ### Claim C3 — incremental classification and Fetch-New-Or-Move -/

/-- Presence of a local message row under `(account_id, folder, uid)`. -/
def hasLocalUidRow (db : Db) (account_id folder : String) (u : Nat) : Bool :=
  db.messages.any fun m =>
    m.account_id == account_id && m.folder == folder && m.uid == some u

/-- Presence of a local message row with this id under the account. -/
def hasMessageId (db : Db) (account_id id : String) : Bool :=
  db.messages.any fun m => m.account_id == account_id && m.id == id

theorem listAny_congr {α : Type} (p q : α → Bool) :
    ∀ l : List α, (∀ a ∈ l, p a = q a) → l.any p = l.any q := by
  intro l
  induction l with
  | nil => intro _; rfl
  | cons a l ih =>
    intro h
    rw [List.any_cons, List.any_cons, h a (List.mem_cons_self a l),
      ih fun b hb => h b (List.mem_cons_of_mem a hb)]

theorem lookup_filterMap_isSome {α : Type} (u : Nat)
    (F : α → Option (Nat × String)) :
    ∀ l : List α, ((l.filterMap F).lookup u).isSome =
      l.any fun m => (F m).map Prod.fst == some u := by
  intro l
  induction l with
  | nil => rfl
  | cons m l ih =>
    rw [List.filterMap_cons, List.any_cons]
    cases hF : F m with
    | none =>
      show ((l.filterMap F).lookup u).isSome =
        (false || l.any fun m => (F m).map Prod.fst == some u)
      rw [Bool.false_or]
      exact ih
    | some p =>
      obtain ⟨k, s⟩ := p
      rw [List.lookup_cons]
      cases hk : u == k with
      | true =>
        have hu : u = k := by simpa using hk
        subst hu
        simp
      | false =>
        have hku : (k == u) = false := by
          simp only [beq_eq_false_iff_ne, ne_eq] at hk ⊢
          exact fun h => hk h.symm
        show ((l.filterMap F).lookup u).isSome =
          ((k == u) || l.any fun m => (F m).map Prod.fst == some u)
        rw [ih, hku, Bool.false_or]

/-- The key set of `load_message_ids_by_uids` is exactly the set of queried
positive UIDs that have a local row under `(account_id, folder, uid)`. -/
theorem lookup_load_ids (db : Db) (acc folder : String) (uids : List Nat)
    (u : Nat) (hu : u ∈ uids) (h0 : 0 < u) :
    ((load_message_ids_by_uids db acc folder uids).lookup u).isSome =
      hasLocalUidRow db acc folder u := by
  unfold load_message_ids_by_uids hasLocalUidRow
  have hne : uids.isEmpty = false := by
    cases uids with
    | nil => cases hu
    | cons a l => rfl
  rw [if_neg (by simp [hne])]
  rw [lookup_filterMap_isSome]
  apply listAny_congr
  intro m _
  by_cases hA : (m.account_id == acc && m.folder == folder) = true
  · rw [if_pos hA]
    cases hm : m.uid with
    | none =>
      show false = ((m.account_id == acc && m.folder == folder) && false)
      rw [Bool.and_false]
    | some v =>
      by_cases hB : (uids.contains v && decide (0 < v)) = true
      · show (Option.map Prod.fst (if (uids.contains v && decide (0 < v)) = true
            then some (v, m.id) else none) == some u) =
          ((m.account_id == acc && m.folder == folder) && (some v == some u))
        rw [if_pos hB, hA]
        show (v == u) = (true && (v == u))
        rw [Bool.true_and]
      · show (Option.map Prod.fst (if (uids.contains v && decide (0 < v)) = true
            then some (v, m.id) else none) == some u) =
          ((m.account_id == acc && m.folder == folder) && (some v == some u))
        rw [if_neg hB]
        have hvu : (v == u) = false := by
          cases h : v == u with
          | false => rfl
          | true =>
            exfalso
            have : v = u := by simpa using h
            subst this
            exact hB (by simp [hu, h0])
        show false = ((m.account_id == acc && m.folder == folder) && (v == u))
        rw [hvu, Bool.and_false]
  · rw [if_neg hA]
    rw [Bool.not_eq_true] at hA
    show false = ((m.account_id == acc && m.folder == folder) && (m.uid == some u))
    rw [hA, Bool.false_and]

theorem contains_filter_map {α : Type} (x : String) (p : α → Bool)
    (f : α → String) :
    ∀ l : List α, (((l.filter p).map f).contains x) =
      l.any fun m => p m && (f m == x) := by
  intro l
  induction l with
  | nil => rfl
  | cons m l ih =>
    rw [List.filter_cons, List.any_cons]
    cases hp : p m with
    | false =>
      show ((l.filter p).map f).contains x =
        ((false && (f m == x)) || l.any fun m => p m && (f m == x))
      rw [ih, Bool.false_and, Bool.false_or]
    | true =>
      rw [if_pos rfl, List.map_cons, List.contains_cons]
      cases hxm : x == f m with
      | true =>
        have : x = f m := by simpa using hxm
        subst this
        simp [ih]
      | false =>
        have hmx : (f m == x) = false := by
          simp only [beq_eq_false_iff_ne, ne_eq] at hxm ⊢
          exact fun h => hxm h.symm
        rw [Bool.false_or, ih, hmx, Bool.and_false, Bool.false_or]

/-- The set `load_existing_message_ids` returns answers membership exactly like
`hasMessageId` on the queried ids. -/
theorem contains_load_existing (db : Db) (acc : String) (ids : List String)
    (x : String) (hx : x ∈ ids) :
    (load_existing_message_ids db acc ids).contains x = hasMessageId db acc x := by
  unfold load_existing_message_ids hasMessageId
  have hne : ids.isEmpty = false := by
    cases ids with
    | nil => cases hx
    | cons a l => rfl
  rw [if_neg (by simp [hne])]
  rw [contains_filter_map]
  apply listAny_congr
  intro m _
  by_cases hmx : (m.id == x) = true
  · have hmem : ids.contains m.id = true := by
      rw [show m.id = x from by simpa using hmx]
      exact List.elem_iff.mpr hx
    rw [hmx, hmem]
    simp
  · have hmx' : (m.id == x) = false := by
      cases h : m.id == x with
      | false => rfl
      | true => exact absurd h hmx
    rw [hmx']
    simp

/-- The metadata tuples `fetch_and_handle_new_uids` collects over all its
chunks, in fetch order. -/
def fnomItems (server : Server) (account_id folder : String)
    (uids : List Nat) : List BatchItem :=
  (chunksOf 250 uids).flatMap fun c => mkBatch server account_id folder c

/-- The location updates of a Fetch-New-Or-Move pass: the fetched tuples
whose computed id already has a row under the account. -/
def fnomLocs (server : Server) (db : Db) (account_id folder : String)
    (uids : List Nat) : List LocationUpdate :=
  ((fnomItems server account_id folder uids).filter fun b =>
    hasMessageId db account_id b.message_id).map (locUpdateOf folder)

/-- The UIDs of a Fetch-New-Or-Move pass that still need a body fetch: the
fetched tuples whose computed id has no row under the account. -/
def fnomNeedBody (server : Server) (db : Db) (account_id folder : String)
    (uids : List Nat) : List Nat :=
  ((fnomItems server account_id folder uids).filter fun b =>
    !hasMessageId db account_id b.message_id).map fun b => b.uid

theorem batch_fold (folder : String) (existing : List String) :
    ∀ (batch : List BatchItem) (a0 : List LocationUpdate × List Nat),
      batch.foldl (fun acc2 b =>
          if existing.contains b.message_id then
            (acc2.1 ++ [locUpdateOf folder b], acc2.2)
          else (acc2.1, acc2.2 ++ [b.uid])) a0 =
      (a0.1 ++ (batch.filter fun b =>
          existing.contains b.message_id).map (locUpdateOf folder),
       a0.2 ++ (batch.filter fun b =>
          !existing.contains b.message_id).map fun b => b.uid) := by
  intro batch
  induction batch with
  | nil => intro a0; simp
  | cons b bs ih =>
    intro a0
    simp only [List.foldl_cons, List.filter_cons]
    cases hb : existing.contains b.message_id with
    | true => rw [ih]; simp
    | false => rw [ih]; simp

theorem chunks_fold (server : Server) (db : Db) (account_id folder : String) :
    ∀ (chunks : List (List Nat)) (a0 : List LocationUpdate × List Nat),
      chunks.foldl
        (fun (acc : List LocationUpdate × List Nat) c =>
          let batch := mkBatch server account_id folder c
          if batch.isEmpty then acc
          else
            let existing := load_existing_message_ids db account_id
              (batch.map fun b => b.message_id)
            batch.foldl
              (fun (acc2 : List LocationUpdate × List Nat) b =>
                if existing.contains b.message_id then
                  (acc2.1 ++ [locUpdateOf folder b], acc2.2)
                else (acc2.1, acc2.2 ++ [b.uid]))
              acc) a0 =
      (a0.1 ++ ((chunks.flatMap fun c => mkBatch server account_id folder c).filter
          fun b => hasMessageId db account_id b.message_id).map (locUpdateOf folder),
       a0.2 ++ ((chunks.flatMap fun c => mkBatch server account_id folder c).filter
          fun b => !hasMessageId db account_id b.message_id).map fun b => b.uid) := by
  intro chunks
  induction chunks with
  | nil => intro a0; simp
  | cons c cs ih =>
    intro a0
    have hfilter : (mkBatch server account_id folder c).filter
        (fun b => (load_existing_message_ids db account_id
          ((mkBatch server account_id folder c).map fun b => b.message_id)).contains
            b.message_id) =
        (mkBatch server account_id folder c).filter fun b =>
          hasMessageId db account_id b.message_id :=
      List.filter_congr fun b hb =>
        contains_load_existing db account_id _ _ (List.mem_map_of_mem _ hb)
    have hfilter2 : (mkBatch server account_id folder c).filter
        (fun b => !(load_existing_message_ids db account_id
          ((mkBatch server account_id folder c).map fun b => b.message_id)).contains
            b.message_id) =
        (mkBatch server account_id folder c).filter fun b =>
          !hasMessageId db account_id b.message_id :=
      List.filter_congr fun b hb => by
        rw [contains_load_existing db account_id _ _ (List.mem_map_of_mem _ hb)]
    simp only [List.foldl_cons, List.flatMap_cons]
    by_cases hbe : (mkBatch server account_id folder c).isEmpty = true
    · have hnil : mkBatch server account_id folder c = [] := by
        cases h : mkBatch server account_id folder c with
        | nil => rfl
        | cons x xs => rw [h] at hbe; simp [List.isEmpty] at hbe
      rw [if_pos hbe, ih, hnil]
      simp
    · rw [if_neg hbe, batch_fold folder _ (mkBatch server account_id folder c) a0,
        ih, hfilter, hfilter2]
      simp [List.filter_append, List.map_append, List.append_assoc]

/-- Structure of a Fetch-New-Or-Move pass: classify all fetched tuples
against the store first, apply every location update in one transaction, and
only then run the body-fetch path on the UIDs whose id is unknown — the
location updates precede the body fetch both in the trace and in the store
dataflow. -/
theorem fetch_and_handle_new_uids_spec (S : Db → List Nat → Db)
    (server : Server) (db : Db) (account_id folder : String)
    (uids : List Nat) (now : Int) :
    fetch_and_handle_new_uids S server db account_id folder uids now =
      (if (fnomNeedBody server db account_id folder uids).isEmpty then
         (if (fnomLocs server db account_id folder uids).isEmpty then db
          else batch_update_message_location_by_id db account_id
            (fnomLocs server db account_id folder uids) now)
       else S
         (if (fnomLocs server db account_id folder uids).isEmpty then db
          else batch_update_message_location_by_id db account_id
            (fnomLocs server db account_id folder uids) now)
         (fnomNeedBody server db account_id folder uids),
       ((chunksOf 250 uids).map fun c =>
          SyncEvent.uidFetch (build_uid_sequence c) metaQueryNew) ++
        (if (fnomLocs server db account_id folder uids).isEmpty then []
         else [SyncEvent.locationUpdates account_id
           (fnomLocs server db account_id folder uids)]) ++
        (if (fnomNeedBody server db account_id folder uids).isEmpty then []
         else [SyncEvent.fetchBodies
           (fnomNeedBody server db account_id folder uids)])) := by
  simp only [fetch_and_handle_new_uids]
  rw [chunks_fold]
  simp only [fnomLocs, fnomNeedBody, fnomItems, List.nil_append]
  split <;> split <;> rfl

/-- The incremental `UID SEARCH` query for a stored MODSEQ `sm`. -/
def incrementalQuery (cutoff_str : String) (sm : Nat) : String :=
  "SINCE " ++ cutoff_str ++ " MODSEQ " ++ natToString (sm + 1)

/-- The `changed_uids` set: the deduplicated incremental search result. -/
def incrementalChanged (server : Server) (cutoff_str : String) (sm : Nat) :
    List Nat :=
  (server.search (incrementalQuery cutoff_str sm)).eraseDups

/-- The changed UIDs with no local row under `(account, folder, uid)`. -/
def incrementalNew (db : Db) (account_id folder : String)
    (changed : List Nat) : List Nat :=
  changed.filter fun v => !hasLocalUidRow db account_id folder v

/-- The changed UIDs with a local row under `(account, folder, uid)`. -/
def incrementalExisting (db : Db) (account_id folder : String)
    (changed : List Nat) : List Nat :=
  changed.filter fun v => hasLocalUidRow db account_id folder v

theorem highestUid_orElse (uidNext : Option Nat) (l : List Nat) (stored : Nat) :
    (Option.orElse
        (Option.filter (fun u => decide (0 < u)) (uidNext.map fun next => next - 1))
        fun _ => l.max?).getD stored =
      (match uidNext with
       | some n => if 2 ≤ n then n - 1 else
           (match l.max? with | some m => m | none => stored)
       | none => match l.max? with | some m => m | none => stored) := by
  cases hn : uidNext with
  | none =>
    simp only [Option.map_none', Option.filter, Option.orElse]
    cases l.max? <;> rfl
  | some n =>
    by_cases h2 : 2 ≤ n
    · have hd : decide (0 < n - 1) = true := by simp; omega
      simp [Option.filter, Option.orElse, hd, h2, show 1 < n by omega]
    · have hd : decide (0 < n - 1) = false := by simp; omega
      simp only [Option.map_some', Option.filter, hd, Bool.false_eq_true,
        if_false, Option.orElse, h2]
      cases l.max? <;> rfl

/-- The `highest_uid` an incremental pass stores: `uid_next − 1` when present
and at least 2, else the maximum changed UID, else the stored value. -/
def incrementalHighestUid (db : Db) (account_id folder : String)
    (changed : List Nat) (mailbox : Mailbox) : Nat :=
  match mailbox.uid_next with
  | some n => if 2 ≤ n then n - 1 else
      (match changed.max? with
       | some m => m
       | none => storedHighestUid db account_id folder)
  | none =>
    match changed.max? with
    | some m => m
    | none => storedHighestUid db account_id folder

/-- The baseline update an incremental pass stores (keeping the previous
`last_uid_scan_ts`). -/
def incrementalUpdate (db : Db) (account_id folder : String)
    (changed : List Nat) (mailbox : Mailbox) (now : Int) : FolderStateUpdate :=
  { uidvalidity := some (mailbox.uid_validity.getD 0)
    highest_uid := some (incrementalHighestUid db account_id folder changed mailbox)
    highestmodseq := mailbox.highest_modseq
    exists_count := some mailbox.exists_count
    last_sync_ts := some now
    last_uid_scan_ts :=
      ((list_folders db account_id).find? fun g => g.name == folder).bind
        fun s => s.last_uid_scan_ts }

/-- The incremental pipeline as the claim describes it: partition the changed
UIDs by presence of a local `(account, folder, uid)` row, run
Fetch-New-Or-Move on the new ones, then the flags-only path on the existing
ones, then write the baseline. -/
def incrementalRun (S : Db → List Nat → Db) (server : Server) (db : Db)
    (account_id cutoff_str folder_name : String) (mailbox : Mailbox)
    (now : Int) (sm : Nat) : Db × List SyncEvent :=
  let changed := incrementalChanged server cutoff_str sm
  let newU := incrementalNew db account_id folder_name changed
  let exU := incrementalExisting db account_id folder_name changed
  let r1 :=
    if newU.isEmpty then (db, ([] : List SyncEvent))
    else fetch_and_handle_new_uids S server db account_id folder_name newU now
  let r2 :=
    if exU.isEmpty then (r1.1, ([] : List SyncEvent))
    else fetch_and_update_flags server r1.1 account_id folder_name exU now
  let u := incrementalUpdate db account_id folder_name changed mailbox now
  (upsert_folder_state r2.1 account_id folder_name u now,
   SyncEvent.uidSearch (incrementalQuery cutoff_str sm) ::
     (r1.2 ++ r2.2 ++ [SyncEvent.upsertFolder account_id folder_name u]))

/-- Claim C3: in an incremental sync with a non-empty changed set,
`sync_folder` partitions the changed UIDs by presence of a local row under
`(account, folder, uid)`, runs Fetch-New-Or-Move on the absent ones and the
flags-only fetch (applied via `batch_update_message_flags_by_uid`) on the
rest; and every Fetch-New-Or-Move pass turns fetched UIDs whose computed id
(X-GM-MSGID or the `account:folder:uid` fallback) already exists locally into
location updates only — applied in one
`batch_update_message_location_by_id` transaction before the body-fetch path
runs on exactly the remaining UIDs. -/
theorem sync_folder_incremental_classification
    (S : Db → List Nat → Db) (server : Server) (db : Db)
    (account_id cutoff_str folder_name : String) (mailbox : Mailbox)
    (force : Bool) (now : Int) (st : FolderRow) (sm cm : Nat)
    (hfind : (list_folders db account_id).find? (fun g => g.name == folder_name) =
      some st)
    (hsm : st.highestmodseq = some sm) (hsm0 : 0 < sm)
    (hcm : mailbox.highest_modseq = some cm) (hdiff : cm ≠ sm)
    (hch : incrementalChanged server cutoff_str sm ≠ [])
    (h0 : ∀ v ∈ incrementalChanged server cutoff_str sm, 0 < v)
    (S0 : Db → List Nat → Db) (server0 : Server) (db0 : Db)
    (acc0 folder0 : String) (uids0 : List Nat) (now0 : Int) :
    sync_folder S server db account_id cutoff_str folder_name mailbox force now =
      incrementalRun S server db account_id cutoff_str folder_name mailbox now sm ∧
    fetch_and_handle_new_uids S0 server0 db0 acc0 folder0 uids0 now0 =
      (if (fnomNeedBody server0 db0 acc0 folder0 uids0).isEmpty then
         (if (fnomLocs server0 db0 acc0 folder0 uids0).isEmpty then db0
          else batch_update_message_location_by_id db0 acc0
            (fnomLocs server0 db0 acc0 folder0 uids0) now0)
       else S0
         (if (fnomLocs server0 db0 acc0 folder0 uids0).isEmpty then db0
          else batch_update_message_location_by_id db0 acc0
            (fnomLocs server0 db0 acc0 folder0 uids0) now0)
         (fnomNeedBody server0 db0 acc0 folder0 uids0),
       ((chunksOf 250 uids0).map fun c =>
          SyncEvent.uidFetch (build_uid_sequence c) metaQueryNew) ++
        (if (fnomLocs server0 db0 acc0 folder0 uids0).isEmpty then []
         else [SyncEvent.locationUpdates acc0
           (fnomLocs server0 db0 acc0 folder0 uids0)]) ++
        (if (fnomNeedBody server0 db0 acc0 folder0 uids0).isEmpty then []
         else [SyncEvent.fetchBodies
           (fnomNeedBody server0 db0 acc0 folder0 uids0)])) := by
  refine ⟨?_, fetch_and_handle_new_uids_spec S0 server0 db0 acc0 folder0 uids0 now0⟩
  simp only [sync_folder]
  split
  · rename_i hfast
    exfalso
    rw [Bool.and_eq_true] at hfast
    obtain ⟨-, hmatch⟩ := hfast
    rw [hfind] at hmatch
    simp only [hsm, hcm, Bool.and_eq_true, decide_eq_true_eq, beq_iff_eq] at hmatch
    exact hdiff hmatch.2
  · split
    · rename_i hmode
      exfalso
      rw [Bool.or_eq_true] at hmode
      rcases hmode with h | h
      · rw [hfind] at h
        simp [hsm] at h
        omega
      · rw [hcm] at h
        simp at h
    · split
      · rename_i hempty
        exfalso
        apply hch
        rw [hfind] at hempty
        have hb1 : (Option.bind (some st) fun s => s.highestmodseq) = some sm := hsm
        rw [hb1] at hempty
        simp only [Option.getD_some] at hempty
        simpa [incrementalChanged, incrementalQuery] using hempty
      · simp only [incrementalRun, incrementalChanged, incrementalQuery,
          incrementalNew, incrementalExisting, incrementalUpdate,
          incrementalHighestUid, storedHighestUid]
        rw [hfind]
        have hb1 : (Option.bind (some st) fun s => s.highestmodseq) = some sm := hsm
        rw [hb1]
        simp only [Option.getD_some]
        rw [highestUid_orElse]
        have hnews :
            ((server.search ("SINCE " ++ cutoff_str ++ " MODSEQ " ++
              natToString (sm + 1))).eraseDups).filter
              (fun v => ((load_message_ids_by_uids db account_id folder_name
                ((server.search ("SINCE " ++ cutoff_str ++ " MODSEQ " ++
                  natToString (sm + 1))).eraseDups)).lookup v).isNone) =
            ((server.search ("SINCE " ++ cutoff_str ++ " MODSEQ " ++
              natToString (sm + 1))).eraseDups).filter
              (fun v => !hasLocalUidRow db account_id folder_name v) :=
          List.filter_congr fun v hv => by
            have hl := lookup_load_ids db account_id folder_name _ v hv (h0 v hv)
            rw [← hl]
            cases (load_message_ids_by_uids db account_id folder_name
              ((server.search ("SINCE " ++ cutoff_str ++ " MODSEQ " ++
                natToString (sm + 1))).eraseDups)).lookup v <;> rfl
        have hexs :
            ((server.search ("SINCE " ++ cutoff_str ++ " MODSEQ " ++
              natToString (sm + 1))).eraseDups).filter
              (fun v => ((load_message_ids_by_uids db account_id folder_name
                ((server.search ("SINCE " ++ cutoff_str ++ " MODSEQ " ++
                  natToString (sm + 1))).eraseDups)).lookup v).isSome) =
            ((server.search ("SINCE " ++ cutoff_str ++ " MODSEQ " ++
              natToString (sm + 1))).eraseDups).filter
              (fun v => hasLocalUidRow db account_id folder_name v) :=
          List.filter_congr fun v hv =>
            lookup_load_ids db account_id folder_name _ v hv (h0 v hv)
        rw [hnews, hexs]

/-- Folder row of the C3 witness scenario. -/
def c3Folder : FolderRow :=
  { account_id := "a", name := "F", uidvalidity := some 1
    highest_uid := some 5, highestmodseq := some 5, exists_count := some 3
    last_sync_ts := some 1, last_uid_scan_ts := some 2
    created_at := 0, updated_at := 0 }

/-- Store of the C3 witness: UID 2 exists in folder `F`; id `77` exists in
another folder (a move source). -/
def c3Db : Db :=
  ⟨[c3Folder],
   [mkMsgRow "10" "a" "F" (some 2) none, mkMsgRow "77" "a" "G" (some 9) none],
   []⟩

/-- Server of the C3 witness: the MODSEQ search returns `[2,3,4]`; UID 3
carries `X-GM-MSGID 77` (a move), UID 4 has no stable id (genuinely new);
the flags fetch reports UID 2 `Seen`. -/
def c3Server : Server :=
  { search := fun _ => [2, 3, 4]
    fetchMeta := fun _ =>
      [⟨some 3, some "77", none, [], [], none, none⟩,
       ⟨some 4, none, none, [], [], none, none⟩]
    fetchFlags := fun _ => [⟨some 2, none, none, ["Seen"], [], none, none⟩] }

/-- Mailbox of the C3 witness: server `HIGHESTMODSEQ` advanced to 7. -/
def c3Mailbox : Mailbox := ⟨some 1, some 11, 3, some 7⟩

/-- Witness for `sync_folder_incremental_classification` on the concrete
move-and-new scenario. -/
theorem sync_folder_incremental_classification_witness :
    (sync_folder idS c3Server c3Db "a" "01-Dec-2025" "F" c3Mailbox false 7 =
      incrementalRun idS c3Server c3Db "a" "01-Dec-2025" "F" c3Mailbox 7 5) ∧
    fetch_and_handle_new_uids idS c3Server c3Db "a" "F" [3, 4] 7 =
      (if (fnomNeedBody c3Server c3Db "a" "F" [3, 4]).isEmpty then
         (if (fnomLocs c3Server c3Db "a" "F" [3, 4]).isEmpty then c3Db
          else batch_update_message_location_by_id c3Db "a"
            (fnomLocs c3Server c3Db "a" "F" [3, 4]) 7)
       else idS
         (if (fnomLocs c3Server c3Db "a" "F" [3, 4]).isEmpty then c3Db
          else batch_update_message_location_by_id c3Db "a"
            (fnomLocs c3Server c3Db "a" "F" [3, 4]) 7)
         (fnomNeedBody c3Server c3Db "a" "F" [3, 4]),
       ((chunksOf 250 [3, 4]).map fun c =>
          SyncEvent.uidFetch (build_uid_sequence c) metaQueryNew) ++
        (if (fnomLocs c3Server c3Db "a" "F" [3, 4]).isEmpty then []
         else [SyncEvent.locationUpdates "a"
           (fnomLocs c3Server c3Db "a" "F" [3, 4])]) ++
        (if (fnomNeedBody c3Server c3Db "a" "F" [3, 4]).isEmpty then []
         else [SyncEvent.fetchBodies (fnomNeedBody c3Server c3Db "a" "F" [3, 4])])) :=
  sync_folder_incremental_classification idS c3Server c3Db "a" "01-Dec-2025" "F"
    c3Mailbox false 7 c3Folder 5 7 (by decide) rfl (by decide) rfl (by decide)
    (by decide) (by decide) idS c3Server c3Db "a" "F" [3, 4] 7

end Otto
